import Mathlib

/-!
Verification of `scripts/auto_update_submodule.py` (the repository
synchronization orchestrator of `tex-template-src`).

The script drives an external VCS ("git") through shell commands.  We embed
it shallowly as a trace-producing interpreter over an abstract environment
`Env`: the environment answers every shell command (given the full history of
events so far, the exact command string the script would pass to the shell,
and the working directory) with an exit code and a captured stdout, and
answers directory-existence queries (`os.path.isdir`).  The interpreter
mirrors the Python control flow line by line: `run` (strict, aborts the whole
process on non-zero exit, modelled by `Except Int`), `run_safe` (returns the
exit code), the dirty-check / stash / try-finally structure of
`update_sibling_repos`, and the two dispatch modes of `main`.

Commands are represented by the inductive `GitCmd`; `GitCmd.render` produces
exactly the command string the Python source builds, and the environment is
only ever consulted with that rendered string, so the interface to the world
is precisely the script's shell interface.  Every event the script produces
(console prints and executed commands) is recorded in an event trace; each
interpreter function returns the list of events it itself produced.
-/
/-- Result of one shell command: exit code and captured stdout (stderr is not
modelled; the script only ever prints it). -/
structure CmdOut where
  code : Int
  out : String
deriving Repr, DecidableEq

/-- Shell commands issued by `auto_update_submodule.py`, with their exact
command strings produced by `GitCmd.render`. -/
inductive GitCmd where
  | pull
  | submoduleUpdate
  | add (path : String)
  | diffCachedQuiet
  | diffQuiet
  | statusPorcelain
  | stashPush
  | stashPop
  | commit (message : String)
  | tagCreate (tag : String)
  | push
  | pushTag (tag : String)
  | fetchTags
  | listTags
  | listTagsAtHead
  | checkout (tag : String)
deriving Repr, DecidableEq

/-- The exact shell string the Python source builds for each command. -/
def GitCmd.render : GitCmd → String
  | .pull => "git pull"
  | .submoduleUpdate => "git submodule update --remote --recursive"
  | .add p => "git add " ++ p
  | .diffCachedQuiet => "git diff --cached --quiet"
  | .diffQuiet => "git diff --quiet"
  | .statusPorcelain => "git status --porcelain"
  | .stashPush => "git stash push -u"
  | .stashPop => "git stash pop"
  | .commit m => "git commit -m \"" ++ m ++ "\""
  | .tagCreate t => "git tag " ++ t
  | .push => "git push"
  | .pushTag t => "git push origin " ++ t
  | .fetchTags => "git fetch --tags"
  | .listTags => "git tag"
  | .listTagsAtHead => "git tag --points-at HEAD"
  | .checkout t => "git checkout " ++ t

/-- An observable event: a console print or an executed shell command
(with the exit code and stdout the world answered). -/
inductive Event where
  | msg (s : String)
  | cmd (c : GitCmd) (cwd : String) (code : Int) (out : String)
deriving Repr, DecidableEq

/-- The abstract world: answers each shell command (rendered string, working
directory) given the full event history, and answers `os.path.isdir`. -/
structure Env where
  answer : List Event → String → String → CmdOut
  isdir : String → Bool

/-- Python `str.strip()`: drop whitespace from both ends. -/
def pyStrip (s : String) : String :=
  String.mk (((s.data.dropWhile Char.isWhitespace).reverse.dropWhile
    Char.isWhitespace).reverse)

/-- Python `str.split(sep)` for a one-character separator, over characters. -/
def splitOnCharAux (sep : Char) : List Char → List (List Char)
  | [] => [[]]
  | c :: rest =>
    let r := splitOnCharAux sep rest
    if c == sep then [] :: r
    else
      match r with
      | h :: t => (c :: h) :: t
      | [] => [[c]]

/-- Python `str.split(sep)` for a one-character separator. -/
def strSplitOnChar (sep : Char) (s : String) : List String :=
  (splitOnCharAux sep s.data).map String.mk

/-- `run(cmd, cwd)`: execute; on non-zero exit print an error and terminate
the process with that exit code (`sys.exit`), else return stripped stdout.
Returns the produced events alongside the result. -/
def runStrict (env : Env) (tr : List Event) (c : GitCmd) (cwd : String) :
    Except Int String × List Event :=
  let r := env.answer tr c.render cwd
  if r.code = 0 then
    (Except.ok (pyStrip r.out), [Event.cmd c cwd r.code r.out])
  else
    (Except.error r.code,
      [Event.cmd c cwd r.code r.out,
       Event.msg ("[ERROR] (" ++ cwd ++ ") " ++ c.render)])

/-- `run_safe(cmd, cwd)`: execute and return the exit code without
terminating. -/
def runSafe (env : Env) (tr : List Event) (c : GitCmd) (cwd : String) :
    Int × List Event :=
  let r := env.answer tr c.render cwd
  (r.code, [Event.cmd c cwd r.code r.out])

/-- `SUBMODULE_PATH = "src"`. -/
def SUBMODULE_PATH : String := "src"

/-- `re.fullmatch` helper: consume one or more digits (`\d+`), returning the
remaining characters, or `none` when no digit starts the input. -/
def matchNum (cs : List Char) : Option (List Char) :=
  if (cs.takeWhile Char.isDigit).isEmpty then none
  else some (cs.dropWhile Char.isDigit)

/-- Matches `\d+\.\d+\.\d+` against the whole character list. -/
def semTail (cs : List Char) : Bool :=
  match matchNum cs with
  | none => false
  | some r1 =>
    match r1 with
    | [] => false
    | c1 :: r2 =>
      c1 == '.' &&
      (match matchNum r2 with
       | none => false
       | some r3 =>
         match r3 with
         | [] => false
         | c2 :: r4 =>
           c2 == '.' &&
           (match matchNum r4 with
            | none => false
            | some r5 => r5.isEmpty))

/-- `is_semver(tag)`: `re.fullmatch(r"v\d+\.\d+\.\d+", tag)` (with `\d` read
as an ASCII digit). -/
def is_semver (tag : String) : Bool :=
  match tag.data with
  | c :: rest => c == 'v' && semTail rest
  | [] => false

/-- `s.lstrip("v")`: drop every leading `v`. -/
def lstripV (s : String) : String :=
  String.mk (s.data.dropWhile (fun c => c == 'v'))

/-- Decimal value of a digit string. -/
def digitsVal (cs : List Char) : Nat :=
  cs.foldl (fun acc c => acc * 10 + (c.toNat - 48)) 0

/-- Python `int(s)` on the strings this script feeds it (`int` is only ever
applied to the all-digit components of validated tags; elsewhere Python would
abort where we default to 0). -/
def pyInt (s : String) : Nat :=
  if !s.data.isEmpty && s.data.all Char.isDigit then digitsVal s.data else 0

/-- The sort key `lambda s: list(map(int, s.lstrip("v").split(".")))`. -/
def semKey (s : String) : List Nat :=
  (strSplitOnChar '.' (lstripV s)).map pyInt

/-- Strict lexicographic `<` on integer lists, Python's list comparison. -/
def keyLt : List Nat → List Nat → Bool
  | [], [] => false
  | [], _ :: _ => true
  | _ :: _, [] => false
  | a :: as, b :: bs => if a < b then true else if b < a then false else keyLt as bs

/-- Non-strict lexicographic `<=` on integer lists. -/
def keyLe (a b : List Nat) : Bool := !keyLt b a

/-- `v_tags.sort(key=lambda s: list(map(int, s.lstrip("v").split("."))))`:
Python's stable ascending sort by the numeric key (insertion sort places each
element before the first later-originating element with a `>=` key, which is
exactly stable ascending order). -/
def sortTags (ts : List String) : List String :=
  List.insertionSort (fun x y => keyLe (semKey x) (semKey y) = true) ts

/-- Python `str.splitlines` on the (already stripped) command output:
the empty string yields no lines. -/
def splitlines (s : String) : List String :=
  if s = "" then [] else strSplitOnChar '\n' s

/-- `os.path.join(parent, name)` for the shapes that occur here. -/
def joinPath (p n : String) : String :=
  if p.data.isEmpty then n
  else if p.data.getLast? == some '/' then p ++ n
  else p ++ "/" ++ n

/-- Lines 85-92: the dirty check, probing in order the staged diff, the
unstaged diff and the porcelain status listing, with Python's short-circuit
`or`; the third probe runs through strict `run` and may abort. -/
def dirtyCheck (env : Env) (tr : List Event) (p : String) :
    Except Int Bool × List Event :=
  let c1 := runSafe env tr GitCmd.diffCachedQuiet p
  if c1.1 ≠ 0 then (Except.ok true, c1.2)
  else
    let c2 := runSafe env (tr ++ c1.2) GitCmd.diffQuiet p
    if c2.1 ≠ 0 then (Except.ok true, c1.2 ++ c2.2)
    else
      let st := runStrict env (tr ++ c1.2 ++ c2.2) GitCmd.statusPorcelain p
      match st.1 with
      | Except.error e => (Except.error e, c1.2 ++ c2.2 ++ st.2)
      | Except.ok s => (Except.ok ((pyStrip s) ≠ ""), c1.2 ++ c2.2 ++ st.2)

/-- Lines 106-111: the commit message, parameterized by the triggering tag
("chore: auto-update to template <tag>" in Chinese when a tag is present,
the generic "chore: auto-update to the latest template" otherwise). -/
def commitMessage : Option String → String
  | some t => "chore: 自动更新至模版 " ++ t
  | none => "chore: 自动更新至最新模版"

/-- Lines 95-115: the body of the `try` block — pull, recursive submodule
update, stage the submodule path, probe the staged index against the last
commit and commit exactly when it differs, with the tag-dependent message. -/
def syncBody (env : Env) (tr : List Event) (p : String) (tag : Option String) :
    Except Int Unit × List Event :=
  let s1 := runStrict env tr GitCmd.pull p
  match s1.1 with
  | Except.error e => (Except.error e, s1.2)
  | Except.ok _ =>
    let d1 := s1.2
    let s2 := runStrict env (tr ++ d1) GitCmd.submoduleUpdate p
    match s2.1 with
    | Except.error e => (Except.error e, d1 ++ s2.2)
    | Except.ok _ =>
      let d2 := d1 ++ s2.2
      let s3 := runStrict env (tr ++ d2) (GitCmd.add SUBMODULE_PATH) p
      match s3.1 with
      | Except.error e => (Except.error e, d2 ++ s3.2)
      | Except.ok _ =>
        let d3 := d2 ++ s3.2
        let s4 := runSafe env (tr ++ d3) GitCmd.diffCachedQuiet p
        let d4 := d3 ++ s4.2
        if s4.1 ≠ 0 then
          let s5 := runStrict env (tr ++ d4) (GitCmd.commit (commitMessage tag)) p
          match s5.1 with
          | Except.error e => (Except.error e, d4 ++ s5.2)
          | Except.ok _ =>
            (Except.ok (), d4 ++ s5.2 ++ [Event.msg " ↳ committed changes"])
        else
          (Except.ok (), d4 ++ [Event.msg " ↳ no changes"])

/-- Lines 94-121: the `try`/`finally` around `syncBody` — when a stash was
created, the `finally` block pops it on every exit path; a failing pop
terminates with the pop's exit code (Python's `SystemExit` raised inside
`finally` replaces the in-flight one). -/
def withStash (env : Env) (tr : List Event) (p : String) (tag : Option String)
    (stashCreated : Bool) : Except Int Unit × List Event :=
  let b := syncBody env tr p tag
  if stashCreated then
    let d := b.2 ++ [Event.msg " ↳ restoring stashed changes"]
    let s := runStrict env (tr ++ d) GitCmd.stashPop p
    match s.1 with
    | Except.error e => (Except.error e, d ++ s.2)
    | Except.ok _ => (b.1, d ++ s.2)
  else b

/-- Lines 76-121: one iteration of the `for` loop of `update_sibling_repos`:
skip (with a warning) when the resolved directory does not exist; otherwise
run the dirty check, stash when dirty (setting `stash_created` only after the
push succeeded), and run the guarded body. -/
def syncRepo (env : Env) (tr : List Event) (parent name : String)
    (tag : Option String) : Except Int Unit × List Event :=
  let p := joinPath parent name
  if env.isdir p then
    let d0 : List Event := [Event.msg ("\n=== Updating " ++ name ++ " ===")]
    let dc := dirtyCheck env (tr ++ d0) p
    match dc.1 with
    | Except.error e => (Except.error e, d0 ++ dc.2)
    | Except.ok dirty =>
      let d1 := d0 ++ dc.2
      if dirty then
        let d2 := d1 ++ [Event.msg " ↳ stashing uncommitted changes"]
        let sp := runStrict env (tr ++ d2) GitCmd.stashPush p
        match sp.1 with
        | Except.error e => (Except.error e, d2 ++ sp.2)
        | Except.ok _ =>
          let d3 := d2 ++ sp.2
          let w := withStash env (tr ++ d3) p tag true
          (w.1, d3 ++ w.2)
      else
        let w := withStash env (tr ++ d1) p tag false
        (w.1, d1 ++ w.2)
  else
    (Except.ok (), [Event.msg ("[WARN] Skipping missing repo: " ++ p)])

/-- Lines 57-121: `update_sibling_repos(repos, tag)` — synchronize the
repositories in order; a fatal executor error aborts the remaining ones.
`parent` is the `parent_dir` local (`os.path.dirname(os.getcwd())`). -/
def update_sibling_repos (env : Env) (tr : List Event) (parent : String)
    (repos : List String) (tag : Option String) : Except Int Unit × List Event :=
  match repos with
  | [] => (Except.ok (), [])
  | name :: rest =>
    let s := syncRepo env tr parent name tag
    match s.1 with
    | Except.error e => (Except.error e, s.2)
    | Except.ok _ =>
      let u := update_sibling_repos env (tr ++ s.2) parent rest tag
      (u.1, s.2 ++ u.2)

/-- Lines 44-54: `git_tag_and_push(tag, repo)` — create the tag on HEAD, push
the branch, push the tag; all three strict. -/
def git_tag_and_push (env : Env) (tr : List Event) (tag repo : String) :
    Except Int Unit × List Event :=
  let d0 : List Event := [Event.msg ("▶ Tagging " ++ repo ++ " with " ++ tag)]
  let s1 := runStrict env (tr ++ d0) (GitCmd.tagCreate tag) repo
  match s1.1 with
  | Except.error e => (Except.error e, d0 ++ s1.2)
  | Except.ok _ =>
    let d1 := d0 ++ s1.2
    let s2 := runStrict env (tr ++ d1) GitCmd.push repo
    match s2.1 with
    | Except.error e => (Except.error e, d1 ++ s2.2)
    | Except.ok _ =>
      let d2 := d1 ++ s2.2
      let s3 := runStrict env (tr ++ d2) (GitCmd.pushTag tag) repo
      match s3.1 with
      | Except.error e => (Except.error e, d2 ++ s3.2)
      | Except.ok _ => (Except.ok (), d2 ++ s3.2)

/-- Line 144: `[r.strip() for r in args.repos.split(",") if r.strip()]`. -/
def parseRepos (arg : String) : List String :=
  ((strSplitOnChar ',' arg).map pyStrip).filter (fun r => !r.data.isEmpty)

/-- Lines 124-185: `main()` — dispatch between the explicit-tag mode and the
auto-detect mode.  `cwd` models `os.getcwd()` and `parentDir` models
`os.path.dirname(os.getcwd())`, both left abstract. -/
def mainRun (env : Env) (cwd parentDir repoArg : String)
    (version : Option String) : Except Int Unit × List Event :=
  let repoList := parseRepos repoArg
  match version with
  | some t =>
    if is_semver t then
      let g := git_tag_and_push env [] t cwd
      match g.1 with
      | Except.error e => (Except.error e, g.2)
      | Except.ok _ =>
        let u := update_sibling_repos env g.2 parentDir repoList (some t)
        (u.1, g.2 ++ u.2)
    else
      (Except.error 2,
        [Event.msg ("[ERROR] Illegal tag: " ++ t ++
          " (expected v<major>.<minor>.<patch>)")])
  | none =>
    let d0 : List Event := [Event.msg "No tag specified — pulling latest commits …"]
    let s1 := runStrict env d0 GitCmd.pull cwd
    match s1.1 with
    | Except.error e => (Except.error e, d0 ++ s1.2)
    | Except.ok _ =>
      let d1 := d0 ++ s1.2
      let s2 := runStrict env d1 GitCmd.fetchTags cwd
      match s2.1 with
      | Except.error e => (Except.error e, d1 ++ s2.2)
      | Except.ok _ =>
        let d2 := d1 ++ s2.2
        let s3 := runStrict env d2 GitCmd.listTags cwd
        match s3.1 with
        | Except.error e => (Except.error e, d2 ++ s3.2)
        | Except.ok fetchedOut =>
          let d3 := d2 ++ s3.2
          let vTags := (splitlines fetchedOut).filter is_semver
          if vTags.isEmpty then
            (Except.ok (), d3 ++ [Event.msg "No v-style tags found — exiting."])
          else
            let newest := (sortTags vTags).getLastD ""
            let s4 := runStrict env d3 GitCmd.listTagsAtHead cwd
            match s4.1 with
            | Except.error e => (Except.error e, d3 ++ s4.2)
            | Except.ok headOut =>
              let d4 := d3 ++ s4.2
              if newest ∈ splitlines headOut then
                let d5 := d4 ++
                  [Event.msg "Already on the latest tag — still updating sibling repos ..."]
                let u := update_sibling_repos env d5 parentDir repoList (some newest)
                (u.1, d5 ++ u.2)
              else
                let d5 := d4 ++
                  [Event.msg ("Newer tag detected: " ++ newest ++ " — checking out …")]
                let s5 := runStrict env d5 (GitCmd.checkout newest) cwd
                match s5.1 with
                | Except.error e => (Except.error e, d5 ++ s5.2)
                | Except.ok _ =>
                  let d6 := d5 ++ s5.2
                  let u := update_sibling_repos env d6 parentDir repoList (some newest)
                  (u.1, d6 ++ u.2)

/-!
Trace observers.  These are specification-side views of an event list; the
claims below are stated through them.
-/

/-- The event is the execution of command `c` in directory `cwd`. -/
def isCmdEvent (e : Event) (c : GitCmd) (cwd : String) : Bool :=
  match e with
  | Event.cmd c2 d _ _ => c2 == c && d == cwd
  | _ => false

/-- Some event in the trace executes `c` in `cwd`. -/
def hasCmd (tr : List Event) (c : GitCmd) (cwd : String) : Bool :=
  tr.any (fun e => isCmdEvent e c cwd)

/-- The event is the execution of `c` in `cwd` with exit code 0. -/
def isOkCmdEvent (e : Event) (c : GitCmd) (cwd : String) : Bool :=
  match e with
  | Event.cmd c2 d code _ => c2 == c && d == cwd && code == 0
  | _ => false

/-- Some event in the trace executes `c` in `cwd` successfully. -/
def hasOkCmd (tr : List Event) (c : GitCmd) (cwd : String) : Bool :=
  tr.any (fun e => isOkCmdEvent e c cwd)

/-- Some event in the trace prints the message `m`. -/
def hasMsg (tr : List Event) (m : String) : Bool :=
  tr.any (fun e => match e with
    | Event.msg s => s == m
    | _ => false)

/-- The event is a `git commit` (any message) in `cwd`. -/
def isCommitEvent (e : Event) (cwd : String) : Bool :=
  match e with
  | Event.cmd (GitCmd.commit _) d _ _ => d == cwd
  | _ => false

/-- Some event in the trace is a `git commit` in `cwd`. -/
def commitAttempted (tr : List Event) (cwd : String) : Bool :=
  tr.any (fun e => isCommitEvent e cwd)

/-- The events strictly after the first execution of `c` in `cwd`. -/
def afterFirst (tr : List Event) (c : GitCmd) (cwd : String) : List Event :=
  (tr.dropWhile (fun e => !isCmdEvent e c cwd)).drop 1

/-- Exit code of the first execution of `c` in `cwd`, when present. -/
def firstCmdCode (tr : List Event) (c : GitCmd) (cwd : String) : Option Int :=
  match tr.find? (fun e => isCmdEvent e c cwd) with
  | some (Event.cmd _ _ code _) => some code
  | _ => none

/-- Exit code of the cached-diff probe run after the submodule path was
staged (the `has_change` probe of lines 99-104). -/
def cachedProbeAfterAdd (tr : List Event) (p : String) : Option Int :=
  firstCmdCode (afterFirst tr (GitCmd.add SUBMODULE_PATH) p) GitCmd.diffCachedQuiet p

/-- Whether an optional probe exit code signals a difference. -/
def probeSignal : Option Int → Bool
  | some c => c != 0
  | none => false

/-- The events of the dirty-check phase: everything before the first stash
push or pull in `p` (both the stash push and the `try` body come strictly
after the dirty check). -/
def dirtyPhase (tr : List Event) (p : String) : List Event :=
  tr.takeWhile (fun e => !isCmdEvent e GitCmd.stashPush p && !isCmdEvent e GitCmd.pull p)

/-- The event is one of the three dirty probes in `p` signalling a non-clean
state: a non-zero staged-diff probe, a non-zero unstaged-diff probe, or a
status listing that succeeded with non-empty (stripped) output. -/
def dirtySignalEvent (e : Event) (p : String) : Bool :=
  match e with
  | Event.cmd GitCmd.diffCachedQuiet d code _ => d == p && code != 0
  | Event.cmd GitCmd.diffQuiet d code _ => d == p && code != 0
  | Event.cmd GitCmd.statusPorcelain d code out => d == p && code == 0 && pyStrip out != ""
  | _ => false

/-- Some event of the trace is a dirty probe in `p` signalling non-clean. -/
def dirtySignal (tr : List Event) (p : String) : Bool :=
  tr.any (fun e => dirtySignalEvent e p)

/-- Stripped stdout of the first successful execution of `c` in `cwd`. -/
def firstOkCmdOutTrim (tr : List Event) (c : GitCmd) (cwd : String) : Option String :=
  match tr.find? (fun e => isOkCmdEvent e c cwd) with
  | some (Event.cmd _ _ _ out) => some (pyStrip out)
  | _ => none

/-- Some event in the trace is a `git checkout` (any tag) in `cwd`. -/
def checkoutAttempted (tr : List Event) (cwd : String) : Bool :=
  tr.any (fun e => match e with
    | Event.cmd (GitCmd.checkout _) d _ _ => d == cwd
    | _ => false)

/-- Whether a `GitCmd` is a commit (any message). -/
def isCommitGitCmd : GitCmd → Bool
  | .commit _ => true
  | _ => false

/-- Commands the Sibling Synchronizer can issue (per repository); the
orchestrator-only commands (tag listing, checkout, tagging, pushing,
tag fetching) never appear in a sync delta. -/
def isOrchCmd : GitCmd → Bool
  | .tagCreate _ => true
  | .push => true
  | .pushTag _ => true
  | .fetchTags => true
  | .listTags => true
  | .listTagsAtHead => true
  | .checkout _ => true
  | _ => false

/-- Whether a `GitCmd` is a checkout (any tag). -/
def isCheckoutGitCmd : GitCmd → Bool
  | .checkout _ => true
  | _ => false

/-- Line 166: the well-formed tags among the listed ones. -/
def vTagsOf (o : String) : List String := (splitlines o).filter is_semver

/-- Lines 173-174: the newest well-formed tag. -/
def newestOf (o : String) : String := (sortTags (vTagsOf o)).getLastD ""

/-- The result of running the Sibling Synchronizer after the prefix `pre` of
orchestrator events, with `tagv` as the trigger. -/
def syncCall (env : Env) (pre : List Event) (parentDir repoArg tagv : String) :
    Except Int Unit × List Event :=
  ((update_sibling_repos env pre parentDir (parseRepos repoArg) (some tagv)).1,
   pre ++ (update_sibling_repos env pre parentDir (parseRepos repoArg) (some tagv)).2)

/-- The specification-side reading of the tag pattern: exactly `v` followed
by three dot-separated non-empty strings of digits, nothing else. -/
def isSemverSpec (s : String) : Prop :=
  ∃ a b c : String,
    a.data ≠ [] ∧ a.data.all Char.isDigit = true ∧
    b.data ≠ [] ∧ b.data.all Char.isDigit = true ∧
    c.data ≠ [] ∧ c.data.all Char.isDigit = true ∧
    s = "v" ++ a ++ "." ++ b ++ "." ++ c

/-- A world with a dirty tree (staged changes) whose `git pull` fails:
exercises the stash-restore-on-failure path. -/
def envDirty : Env where
  answer _ c _ :=
    if c == "git diff --cached --quiet" then ⟨1, ""⟩
    else if c == "git pull" then ⟨1, "network down"⟩
    else ⟨0, ""⟩
  isdir _ := true

/-- A world with a clean tree where the submodule pointer advances: the
cached-diff probe reports a difference only after `git add src`. -/
def envCommit : Env where
  answer tr c cwd :=
    if c == "git diff --cached --quiet" then
      if hasCmd tr (GitCmd.add SUBMODULE_PATH) cwd then ⟨1, ""⟩ else ⟨0, ""⟩
    else ⟨0, ""⟩
  isdir _ := true

/-- A world where the sibling directory `P/b` does not exist. -/
def envBMissing : Env where
  answer _ _ _ := ⟨0, ""⟩
  isdir p := !(p == "P/b")

/-- A world where every command succeeds with empty output: the remote has
no tags at all. -/
def envNoTags : Env where
  answer _ _ _ := ⟨0, ""⟩
  isdir _ := true

@[simp] theorem isCmdEvent_msg (s : String) (c : GitCmd) (cwd : String) :
    isCmdEvent (Event.msg s) c cwd = false := rfl

@[simp] theorem isCmdEvent_cmd (c2 : GitCmd) (d : String) (code : Int)
    (out : String) (c : GitCmd) (cwd : String) :
    isCmdEvent (Event.cmd c2 d code out) c cwd = (c2 == c && d == cwd) := rfl

@[simp] theorem isOkCmdEvent_msg (s : String) (c : GitCmd) (cwd : String) :
    isOkCmdEvent (Event.msg s) c cwd = false := rfl

@[simp] theorem isOkCmdEvent_cmd (c2 : GitCmd) (d : String) (code : Int)
    (out : String) (c : GitCmd) (cwd : String) :
    isOkCmdEvent (Event.cmd c2 d code out) c cwd = (c2 == c && d == cwd && code == 0) := rfl

@[simp] theorem isCommitEvent_msg (s : String) (cwd : String) :
    isCommitEvent (Event.msg s) cwd = false := rfl

@[simp] theorem isCommitEvent_cmd (c2 : GitCmd) (d : String) (code : Int)
    (out : String) (cwd : String) :
    isCommitEvent (Event.cmd c2 d code out) cwd = (isCommitGitCmd c2 && d == cwd) := by
  cases c2 <;> simp [isCommitEvent, isCommitGitCmd]

@[simp] theorem hasCmd_nil (c : GitCmd) (q : String) : hasCmd [] c q = false := rfl

@[simp] theorem hasCmd_cons (e : Event) (es : List Event) (c : GitCmd) (q : String) :
    hasCmd (e :: es) c q = (isCmdEvent e c q || hasCmd es c q) := by
  simp [hasCmd]

@[simp] theorem hasCmd_append (a b : List Event) (c : GitCmd) (q : String) :
    hasCmd (a ++ b) c q = (hasCmd a c q || hasCmd b c q) := by
  simp [hasCmd]

@[simp] theorem hasOkCmd_nil (c : GitCmd) (q : String) : hasOkCmd [] c q = false := rfl

@[simp] theorem hasOkCmd_cons (e : Event) (es : List Event) (c : GitCmd) (q : String) :
    hasOkCmd (e :: es) c q = (isOkCmdEvent e c q || hasOkCmd es c q) := by
  simp [hasOkCmd]

@[simp] theorem hasOkCmd_append (a b : List Event) (c : GitCmd) (q : String) :
    hasOkCmd (a ++ b) c q = (hasOkCmd a c q || hasOkCmd b c q) := by
  simp [hasOkCmd]

@[simp] theorem commitAttempted_nil (q : String) : commitAttempted [] q = false := rfl

@[simp] theorem commitAttempted_cons (e : Event) (es : List Event) (q : String) :
    commitAttempted (e :: es) q = (isCommitEvent e q || commitAttempted es q) := by
  simp [commitAttempted]

@[simp] theorem commitAttempted_append (a b : List Event) (q : String) :
    commitAttempted (a ++ b) q = (commitAttempted a q || commitAttempted b q) := by
  simp [commitAttempted]

@[simp] theorem hasCmd_runStrict (env : Env) (tr : List Event) (c : GitCmd)
    (cwd : String) (c2 : GitCmd) (q : String) :
    hasCmd (runStrict env tr c cwd).2 c2 q = (c == c2 && cwd == q) := by
  simp only [runStrict]
  split <;> simp

@[simp] theorem hasCmd_runSafe (env : Env) (tr : List Event) (c : GitCmd)
    (cwd : String) (c2 : GitCmd) (q : String) :
    hasCmd (runSafe env tr c cwd).2 c2 q = (c == c2 && cwd == q) := by
  simp [runSafe]

@[simp] theorem hasOkCmd_runStrict (env : Env) (tr : List Event) (c : GitCmd)
    (cwd : String) (c2 : GitCmd) (q : String) :
    hasOkCmd (runStrict env tr c cwd).2 c2 q =
      (c == c2 && cwd == q && (env.answer tr c.render cwd).code == 0) := by
  simp only [runStrict]
  split <;> simp

@[simp] theorem hasOkCmd_runSafe (env : Env) (tr : List Event) (c : GitCmd)
    (cwd : String) (c2 : GitCmd) (q : String) :
    hasOkCmd (runSafe env tr c cwd).2 c2 q =
      (c == c2 && cwd == q && (env.answer tr c.render cwd).code == 0) := by
  simp [runSafe]

@[simp] theorem commitAttempted_runStrict (env : Env) (tr : List Event) (c : GitCmd)
    (cwd : String) (q : String) :
    commitAttempted (runStrict env tr c cwd).2 q = (isCommitGitCmd c && cwd == q) := by
  simp only [runStrict]
  split <;> simp

@[simp] theorem commitAttempted_runSafe (env : Env) (tr : List Event) (c : GitCmd)
    (cwd : String) (q : String) :
    commitAttempted (runSafe env tr c cwd).2 q = (isCommitGitCmd c && cwd == q) := by
  simp [runSafe]

theorem syncBody_no_stash (env : Env) (tr : List Event) (p : String)
    (tag : Option String) (q : String) :
    hasCmd (syncBody env tr p tag).2 GitCmd.stashPush q = false ∧
      hasCmd (syncBody env tr p tag).2 GitCmd.stashPop q = false := by
  simp only [syncBody]
  repeat' split
  all_goals simp

theorem hasOkCmd_false_of_hasCmd_false (tr : List Event) (c : GitCmd) (q : String)
    (h : hasCmd tr c q = false) : hasOkCmd tr c q = false := by
  induction tr with
  | nil => rfl
  | cons e es ih =>
    simp only [hasCmd_cons, Bool.or_eq_false_iff] at h
    cases e with
    | msg s => simpa using ih h.2
    | cmd c2 d code out =>
      simp only [isCmdEvent_cmd, Bool.and_eq_false_iff] at h
      simp only [hasOkCmd_cons, isOkCmdEvent_cmd, Bool.or_eq_false_iff,
        Bool.and_eq_false_iff]
      exact ⟨Or.inl h.1, ih h.2⟩

theorem withStash_stash_facts (env : Env) (tr : List Event) (p : String)
    (tag : Option String) (sc : Bool) (q : String) :
    hasOkCmd (withStash env tr p tag sc).2 GitCmd.stashPush q = false ∧
      hasCmd (withStash env tr p tag sc).2 GitCmd.stashPop q = (sc && p == q) := by
  have hb := syncBody_no_stash env tr p tag q
  have hb1 := hasOkCmd_false_of_hasCmd_false _ _ _ hb.1
  simp only [withStash]
  repeat' split
  all_goals simp_all

theorem dirtyCheck_stash_facts (env : Env) (tr : List Event) (p : String) (q : String) :
    hasOkCmd (dirtyCheck env tr p).2 GitCmd.stashPush q = false ∧
      hasCmd (dirtyCheck env tr p).2 GitCmd.stashPop q = false := by
  simp only [dirtyCheck]
  repeat' split
  all_goals simp

theorem runStrict_code_eq_zero_of_ok {env : Env} {tr : List Event} {c : GitCmd}
    {cwd : String} {s : String} (h : (runStrict env tr c cwd).1 = Except.ok s) :
    (env.answer tr c.render cwd).code = 0 := by
  simp only [runStrict] at h
  by_cases hc : (env.answer tr c.render cwd).code = 0
  · exact hc
  · simp [hc] at h

theorem runStrict_code_ne_zero_of_error {env : Env} {tr : List Event} {c : GitCmd}
    {cwd : String} {e : Int} (h : (runStrict env tr c cwd).1 = Except.error e) :
    ¬ (env.answer tr c.render cwd).code = 0 := by
  simp only [runStrict] at h
  by_cases hc : (env.answer tr c.render cwd).code = 0
  · simp [hc] at h
  · exact hc

theorem syncRepo_pop_eq_push (env : Env) (tr : List Event) (parent name : String)
    (tag : Option String) (q : String) :
    hasCmd (syncRepo env tr parent name tag).2 GitCmd.stashPop q =
      hasOkCmd (syncRepo env tr parent name tag).2 GitCmd.stashPush q := by
  simp only [syncRepo]
  split
  · split
    · simp [dirtyCheck_stash_facts]
    · split
      · split
        · rename_i e heq
          have hc := runStrict_code_ne_zero_of_error heq
          simp only [List.append_assoc, List.singleton_append, List.cons_append,
            List.nil_append] at hc
          simp [dirtyCheck_stash_facts, beq_eq_false_iff_ne.mpr hc]
        · rename_i s heq
          have hc := runStrict_code_eq_zero_of_ok heq
          simp only [List.append_assoc, List.singleton_append, List.cons_append,
            List.nil_append] at hc
          simp [dirtyCheck_stash_facts, withStash_stash_facts, hc]
      · simp [dirtyCheck_stash_facts, withStash_stash_facts]
  · simp

theorem update_pop_eq_push (env : Env) (parent : String) (repos : List String)
    (tag : Option String) (q : String) : ∀ tr : List Event,
    hasCmd (update_sibling_repos env tr parent repos tag).2 GitCmd.stashPop q =
      hasOkCmd (update_sibling_repos env tr parent repos tag).2 GitCmd.stashPush q := by
  induction repos with
  | nil => intro tr; rfl
  | cons name rest ih =>
    intro tr
    simp only [update_sibling_repos]
    split
    · exact syncRepo_pop_eq_push env tr parent name tag q
    · simp [syncRepo_pop_eq_push, ih]

@[simp] theorem afterFirst_nil (c : GitCmd) (q : String) : afterFirst [] c q = [] := rfl

theorem afterFirst_cons (e : Event) (es : List Event) (c : GitCmd) (q : String) :
    afterFirst (e :: es) c q = if isCmdEvent e c q then es else afterFirst es c q := by
  by_cases h : isCmdEvent e c q <;> simp [afterFirst, List.dropWhile_cons, h]

theorem afterFirst_append (a b : List Event) (c : GitCmd) (q : String) :
    afterFirst (a ++ b) c q =
      if hasCmd a c q then afterFirst a c q ++ b else afterFirst b c q := by
  induction a with
  | nil => simp
  | cons e es ih =>
    by_cases h : isCmdEvent e c q <;>
      simp [afterFirst_cons, h, ih, hasCmd_cons]

@[simp] theorem firstCmdCode_nil (c : GitCmd) (q : String) : firstCmdCode [] c q = none := rfl

theorem firstCmdCode_cons_msg (s : String) (es : List Event) (c : GitCmd) (q : String) :
    firstCmdCode (Event.msg s :: es) c q = firstCmdCode es c q := by
  simp [firstCmdCode, List.find?_cons]

theorem firstCmdCode_cons_cmd (c2 : GitCmd) (d : String) (code : Int) (out : String)
    (es : List Event) (c : GitCmd) (q : String) :
    firstCmdCode (Event.cmd c2 d code out :: es) c q =
      if c2 == c && d == q then some code else firstCmdCode es c q := by
  by_cases h : (c2 == c && d == q) = true <;>
    simp [firstCmdCode, List.find?_cons, isCmdEvent, h]

theorem firstCmdCode_none_of_hasCmd_false (t : List Event) (c : GitCmd) (q : String)
    (h : hasCmd t c q = false) : firstCmdCode t c q = none := by
  induction t with
  | nil => rfl
  | cons e es ih =>
    simp only [hasCmd_cons, Bool.or_eq_false_iff] at h
    cases e with
    | msg s => simpa [firstCmdCode_cons_msg] using ih h.2
    | cmd c2 d code out =>
      simp only [isCmdEvent_cmd] at h
      simp [firstCmdCode_cons_cmd, h.1, ih h.2]

theorem firstCmdCode_append (a b : List Event) (c : GitCmd) (q : String) :
    firstCmdCode (a ++ b) c q =
      if hasCmd a c q then firstCmdCode a c q else firstCmdCode b c q := by
  induction a with
  | nil => simp
  | cons e es ih =>
    cases e with
    | msg s => simp [firstCmdCode_cons_msg, ih, hasCmd_cons]
    | cmd c2 d code out =>
      by_cases h : (c2 == c && d == q) = true <;>
        simp [firstCmdCode_cons_cmd, h, ih, hasCmd_cons]

theorem cachedProbe_append_left (a b : List Event) (p : String)
    (h : hasCmd a (GitCmd.add SUBMODULE_PATH) p = false) :
    cachedProbeAfterAdd (a ++ b) p = cachedProbeAfterAdd b p := by
  simp [cachedProbeAfterAdd, afterFirst_append, h]

theorem cachedProbe_none_of_no_add (a : List Event) (p : String)
    (h : hasCmd a (GitCmd.add SUBMODULE_PATH) p = false) :
    cachedProbeAfterAdd a p = none := by
  have := cachedProbe_append_left a [] p h
  simpa using this

theorem cachedProbe_append_right (a x : List Event) (p : String)
    (hadd : hasCmd x (GitCmd.add SUBMODULE_PATH) p = false)
    (hprobe : hasCmd x GitCmd.diffCachedQuiet p = false) :
    cachedProbeAfterAdd (a ++ x) p = cachedProbeAfterAdd a p := by
  by_cases h : hasCmd a (GitCmd.add SUBMODULE_PATH) p
  · simp only [cachedProbeAfterAdd, afterFirst_append, h, if_true]
    rw [firstCmdCode_append]
    by_cases h2 : hasCmd (afterFirst a (GitCmd.add SUBMODULE_PATH) p) GitCmd.diffCachedQuiet p
    · simp [h2]
    · simp [h2, firstCmdCode_none_of_hasCmd_false _ _ _ hprobe,
        firstCmdCode_none_of_hasCmd_false _ _ _ (by simpa using h2)]
  · rw [cachedProbe_append_left _ _ _ (by simpa using h),
      cachedProbe_none_of_no_add _ _ hadd,
      cachedProbe_none_of_no_add _ _ (by simpa using h)]

theorem runStrict_delta_of_ok {env : Env} {tr : List Event} {c : GitCmd}
    {cwd : String} {s : String} (h : (runStrict env tr c cwd).1 = Except.ok s) :
    (runStrict env tr c cwd).2 =
      [Event.cmd c cwd (env.answer tr c.render cwd).code (env.answer tr c.render cwd).out] := by
  have hc := runStrict_code_eq_zero_of_ok h
  simp [runStrict, hc]

theorem runStrict_delta_of_error {env : Env} {tr : List Event} {c : GitCmd}
    {cwd : String} {e : Int} (h : (runStrict env tr c cwd).1 = Except.error e) :
    (runStrict env tr c cwd).2 =
      [Event.cmd c cwd (env.answer tr c.render cwd).code (env.answer tr c.render cwd).out,
       Event.msg ("[ERROR] (" ++ cwd ++ ") " ++ c.render)] := by
  have hc := runStrict_code_ne_zero_of_error h
  simp [runStrict, hc]

theorem runSafe_delta (env : Env) (tr : List Event) (c : GitCmd) (cwd : String) :
    (runSafe env tr c cwd).2 =
      [Event.cmd c cwd (env.answer tr c.render cwd).code (env.answer tr c.render cwd).out] := rfl

theorem runSafe_code (env : Env) (tr : List Event) (c : GitCmd) (cwd : String) :
    (runSafe env tr c cwd).1 = (env.answer tr c.render cwd).code := rfl

theorem syncBody_commit_eq_probe (env : Env) (tr : List Event) (p : String)
    (tag : Option String) :
    commitAttempted (syncBody env tr p tag).2 p =
      probeSignal (cachedProbeAfterAdd (syncBody env tr p tag).2 p) := by
  simp only [syncBody]
  split
  · rename_i e h1
    rw [runStrict_delta_of_error h1]
    simp [isCommitGitCmd, cachedProbeAfterAdd, afterFirst_cons, probeSignal]
  · rename_i s1 h1
    rw [runStrict_delta_of_ok h1]
    split
    · rename_i e h2
      rw [runStrict_delta_of_error h2]
      simp [isCommitGitCmd, cachedProbeAfterAdd, afterFirst_cons, probeSignal]
    · rename_i s2 h2
      rw [runStrict_delta_of_ok h2]
      split
      · rename_i e h3
        rw [runStrict_delta_of_error h3]
        simp [isCommitGitCmd, cachedProbeAfterAdd, afterFirst_cons, firstCmdCode_cons_msg, probeSignal]
      · rename_i s3 h3
        rw [runStrict_delta_of_ok h3, runSafe_code, runSafe_delta]
        split
        · rename_i h4
          simp only [List.append_assoc, List.singleton_append, List.cons_append,
            List.nil_append] at h4
          split
          · rename_i e h5
            rw [runStrict_delta_of_error h5]
            simp [isCommitGitCmd, cachedProbeAfterAdd, afterFirst_cons, firstCmdCode_cons_msg,
              firstCmdCode_cons_cmd, probeSignal, h4]
          · rename_i s5 h5
            rw [runStrict_delta_of_ok h5]
            simp [isCommitGitCmd, cachedProbeAfterAdd, afterFirst_cons, firstCmdCode_cons_msg,
              firstCmdCode_cons_cmd, probeSignal, h4]
        · rename_i h4
          simp only [Decidable.not_not, ne_eq, List.append_assoc, List.singleton_append,
            List.cons_append, List.nil_append] at h4
          simp [isCommitGitCmd, cachedProbeAfterAdd, afterFirst_cons, firstCmdCode_cons_msg,
            firstCmdCode_cons_cmd, probeSignal, h4]

theorem cachedProbe_cons_msg (m : String) (es : List Event) (p : String) :
    cachedProbeAfterAdd (Event.msg m :: es) p = cachedProbeAfterAdd es p := by
  simp [cachedProbeAfterAdd, afterFirst_cons]

theorem cachedProbe_cons_cmd (c2 : GitCmd) (d : String) (code : Int) (out : String)
    (es : List Event) (p : String)
    (h : (c2 == GitCmd.add SUBMODULE_PATH && d == p) = false) :
    cachedProbeAfterAdd (Event.cmd c2 d code out :: es) p = cachedProbeAfterAdd es p := by
  simp [cachedProbeAfterAdd, afterFirst_cons, h]

theorem dirtyCheck_no_add (env : Env) (tr : List Event) (p q : String) :
    hasCmd (dirtyCheck env tr p).2 (GitCmd.add SUBMODULE_PATH) q = false := by
  simp only [dirtyCheck]
  repeat' split
  all_goals simp

theorem dirtyCheck_no_commit (env : Env) (tr : List Event) (p q : String) :
    commitAttempted (dirtyCheck env tr p).2 q = false := by
  simp only [dirtyCheck]
  repeat' split
  all_goals simp [isCommitGitCmd]

theorem withStash_commit_eq_probe (env : Env) (tr : List Event) (p : String)
    (tag : Option String) (sc : Bool) :
    commitAttempted (withStash env tr p tag sc).2 p =
      probeSignal (cachedProbeAfterAdd (withStash env tr p tag sc).2 p) := by
  simp only [withStash]
  split
  · split
    · rename_i e heq
      rw [runStrict_delta_of_error heq]
      rw [List.append_assoc]
      rw [cachedProbe_append_right _ _ _ (by simp) (by simp)]
      simp [syncBody_commit_eq_probe, isCommitGitCmd]
    · rename_i s heq
      rw [runStrict_delta_of_ok heq]
      rw [List.append_assoc]
      rw [cachedProbe_append_right _ _ _ (by simp) (by simp)]
      simp [syncBody_commit_eq_probe, isCommitGitCmd]
  · exact syncBody_commit_eq_probe env tr p tag

theorem syncRepo_commit_eq_probe (env : Env) (tr : List Event) (parent name : String)
    (tag : Option String) :
    commitAttempted (syncRepo env tr parent name tag).2 (joinPath parent name) =
      probeSignal
        (cachedProbeAfterAdd (syncRepo env tr parent name tag).2 (joinPath parent name)) := by
  simp only [syncRepo]
  repeat' split
  all_goals
    simp [cachedProbe_append_left, cachedProbe_none_of_no_add, cachedProbe_cons_msg,
      cachedProbe_cons_cmd, dirtyCheck_no_add, dirtyCheck_no_commit,
      withStash_commit_eq_probe, probeSignal, isCommitGitCmd]

theorem commitAttempted_of_mem {m cwd : String} {code : Int} {out : String}
    {tr : List Event} (h : Event.cmd (GitCmd.commit m) cwd code out ∈ tr) :
    commitAttempted tr cwd = true := by
  simp only [commitAttempted, List.any_eq_true]
  exact ⟨_, h, by simp [isCommitGitCmd]⟩

theorem syncBody_commit_msg (env : Env) (tr : List Event) (p : String)
    (tag : Option String) (m cwd : String) (code : Int) (out : String)
    (h : Event.cmd (GitCmd.commit m) cwd code out ∈ (syncBody env tr p tag).2) :
    m = commitMessage tag ∧ cwd = p := by
  simp only [syncBody] at h
  split at h
  · rename_i e h1
    rw [runStrict_delta_of_error h1] at h
    simp at h
  · rename_i s1 h1
    rw [runStrict_delta_of_ok h1] at h
    split at h
    · rename_i e h2
      rw [runStrict_delta_of_error h2] at h
      simp at h
    · rename_i s2 h2
      rw [runStrict_delta_of_ok h2] at h
      split at h
      · rename_i e h3
        rw [runStrict_delta_of_error h3] at h
        simp at h
      · rename_i s3 h3
        rw [runStrict_delta_of_ok h3, runSafe_delta] at h
        split at h
        · split at h
          · rename_i e h5
            rw [runStrict_delta_of_error h5] at h
            simp at h
            exact ⟨h.1, h.2.1⟩
          · rename_i s5 h5
            rw [runStrict_delta_of_ok h5] at h
            simp at h
            exact ⟨h.1, h.2.1⟩
        · simp at h

theorem withStash_commit_msg (env : Env) (tr : List Event) (p : String)
    (tag : Option String) (sc : Bool) (m cwd : String) (code : Int) (out : String)
    (h : Event.cmd (GitCmd.commit m) cwd code out ∈ (withStash env tr p tag sc).2) :
    m = commitMessage tag ∧ cwd = p := by
  simp only [withStash] at h
  split at h
  · split at h
    · rename_i e heq
      rw [runStrict_delta_of_error heq] at h
      simp only [List.append_assoc, List.mem_append, List.mem_cons,
        List.mem_singleton, List.not_mem_nil, or_false] at h
      rcases h with h | h
      · exact syncBody_commit_msg env tr p tag m cwd code out h
      · simp at h
    · rename_i s heq
      rw [runStrict_delta_of_ok heq] at h
      simp only [List.append_assoc, List.mem_append, List.mem_cons,
        List.mem_singleton, List.not_mem_nil, or_false] at h
      rcases h with h | h
      · exact syncBody_commit_msg env tr p tag m cwd code out h
      · simp at h
  · exact syncBody_commit_msg env tr p tag m cwd code out h

theorem syncRepo_commit_msg (env : Env) (tr : List Event) (parent name : String)
    (tag : Option String) (m cwd : String) (code : Int) (out : String)
    (h : Event.cmd (GitCmd.commit m) cwd code out ∈ (syncRepo env tr parent name tag).2) :
    m = commitMessage tag ∧ cwd = joinPath parent name := by
  simp only [syncRepo] at h
  split at h
  · split at h
    · rename_i e heq
      simp only [List.mem_append, List.mem_cons, List.not_mem_nil, or_false] at h
      rcases h with h | h
      · simp at h
      · have := commitAttempted_of_mem h
        rw [dirtyCheck_no_commit] at this
        exact absurd this (by simp)
    · rename_i dirty heq
      split at h
      · split at h
        · rename_i e heq2
          rw [runStrict_delta_of_error heq2] at h
          simp only [List.append_assoc, List.mem_append, List.mem_cons,
            List.mem_singleton, List.not_mem_nil, or_false] at h
          rcases h with h | h | h | h
          · simp at h
          · have := commitAttempted_of_mem h
            rw [dirtyCheck_no_commit] at this
            exact absurd this (by simp)
          · simp at h
          · simp at h
        · rename_i s heq2
          rw [runStrict_delta_of_ok heq2] at h
          simp only [List.append_assoc, List.mem_append, List.mem_cons,
            List.mem_singleton, List.not_mem_nil, or_false] at h
          rcases h with h | h | h | h | h
          · simp at h
          · have := commitAttempted_of_mem h
            rw [dirtyCheck_no_commit] at this
            exact absurd this (by simp)
          · simp at h
          · simp at h
          · exact withStash_commit_msg env _ _ tag true m cwd code out h
      · simp only [List.append_assoc, List.mem_append, List.mem_cons,
          List.not_mem_nil, or_false] at h
        rcases h with h | h | h
        · simp at h
        · have := commitAttempted_of_mem h
          rw [dirtyCheck_no_commit] at this
          exact absurd this (by simp)
        · exact withStash_commit_msg env _ _ tag false m cwd code out h
  · simp at h

theorem mem_dropWhile_of_not {α : Type} (p : α → Bool) (l : List α) (x : α)
    (hx : x ∈ l) (hp : p x = false) : x ∈ l.dropWhile p := by
  induction l with
  | nil => cases hx
  | cons a t ih =>
    rw [List.dropWhile_cons]
    by_cases ha : p a = true
    · simp only [ha, if_true]
      rcases List.mem_cons.mp hx with rfl | hxt
      · rw [ha] at hp; cases hp
      · exact ih hxt
    · simp only [ha, if_false]
      exact hx

theorem dropWhile_head_not {α : Type} (p : α → Bool) (l : List α) (c : α)
    (t : List α) (h : l.dropWhile p = c :: t) : p c = false := by
  induction l with
  | nil => cases h
  | cons a r ih =>
    rw [List.dropWhile_cons] at h
    by_cases ha : p a = true
    · rw [if_pos ha] at h
      exact ih h
    · rw [if_neg ha] at h
      cases h
      exact Bool.eq_false_iff.mpr ha

theorem pyStrip_eq_empty_iff (s : String) :
    pyStrip s = "" ↔ s.data.all Char.isWhitespace = true := by
  rw [List.all_eq_true]
  constructor
  · intro h
    have hL : ((s.data.dropWhile Char.isWhitespace).reverse.dropWhile
        Char.isWhitespace).reverse = [] := congrArg String.data h
    rw [List.reverse_eq_nil_iff, List.dropWhile_eq_nil_iff] at hL
    intro x hx
    rcases List.mem_append.mp
        ((List.takeWhile_append_dropWhile Char.isWhitespace s.data).symm ▸ hx) with h1 | h1
    · exact List.mem_takeWhile_imp h1
    · exact hL x (List.mem_reverse.mpr h1)
  · intro h
    have h1 : s.data.dropWhile Char.isWhitespace = [] :=
      List.dropWhile_eq_nil_iff.mpr h
    simp [pyStrip, h1]

theorem pyStrip_idem_empty (s : String) :
    pyStrip (pyStrip s) = "" ↔ pyStrip s = "" := by
  constructor
  · intro h
    rcases hy : s.data.dropWhile Char.isWhitespace with _ | ⟨c, t⟩
    · rw [pyStrip_eq_empty_iff, List.all_eq_true]
      exact List.dropWhile_eq_nil_iff.mp hy
    · exfalso
      have hc : Char.isWhitespace c = false := dropWhile_head_not _ _ _ _ hy
      have hmem : c ∈ (pyStrip s).data := by
        simp only [pyStrip]
        rw [List.mem_reverse]
        exact mem_dropWhile_of_not _ _ _ (List.mem_reverse.mpr (by rw [hy]; simp)) hc
      have hall := (pyStrip_eq_empty_iff (pyStrip s)).mp h
      rw [List.all_eq_true] at hall
      rw [hall c hmem] at hc
      cases hc
  · intro h
    rw [h]
    rfl

theorem runStrict_out_of_ok {env : Env} {tr : List Event} {c : GitCmd}
    {cwd : String} {s : String} (h : (runStrict env tr c cwd).1 = Except.ok s) :
    s = pyStrip (env.answer tr c.render cwd).out := by
  have hc := runStrict_code_eq_zero_of_ok h
  simp only [runStrict, hc, if_pos] at h
  cases h
  rfl

@[simp] theorem dirtySignal_nil (p : String) : dirtySignal [] p = false := rfl

@[simp] theorem dirtySignal_cons (e : Event) (es : List Event) (p : String) :
    dirtySignal (e :: es) p = (dirtySignalEvent e p || dirtySignal es p) := by
  simp [dirtySignal]

@[simp] theorem dirtySignal_append (a b : List Event) (p : String) :
    dirtySignal (a ++ b) p = (dirtySignal a p || dirtySignal b p) := by
  simp [dirtySignal]

@[simp] theorem dirtySignalEvent_msg (s : String) (p : String) :
    dirtySignalEvent (Event.msg s) p = false := rfl

theorem dirtyCheck_no_push (env : Env) (tr : List Event) (p q : String) :
    hasCmd (dirtyCheck env tr p).2 GitCmd.stashPush q = false := by
  simp only [dirtyCheck]
  repeat' split
  all_goals simp

theorem dirtyCheck_all_phase (env : Env) (tr : List Event) (p q : String) :
    ((dirtyCheck env tr p).2.all
      (fun e => !isCmdEvent e GitCmd.stashPush q && !isCmdEvent e GitCmd.pull q)) = true := by
  simp only [dirtyCheck]
  split
  · simp [runSafe]
  · split
    · simp [runSafe]
    · split
      · rename_i e heq
        rw [runStrict_delta_of_error heq]
        simp [runSafe]
      · rename_i s heq
        rw [runStrict_delta_of_ok heq]
        simp [runSafe]

theorem decide_eq_not_bne {α : Type} [BEq α] [LawfulBEq α] [DecidableEq α]
    (a b : α) : (decide (a = b)) = !(a != b) := by
  by_cases h : a = b <;> simp [h]

theorem strip_decide_eq (x : String) :
    (decide (pyStrip (pyStrip x) = "")) = !(pyStrip x != "") := by
  by_cases hP : pyStrip x = ""
  · simp [hP, pyStrip_idem_empty, show pyStrip "" = "" from by decide]
  · simp [hP, pyStrip_idem_empty]

theorem dirtyCheck_ok_signal (env : Env) (tr : List Event) (p : String) (dirty : Bool)
    (h : (dirtyCheck env tr p).1 = Except.ok dirty) :
    dirty = dirtySignal (dirtyCheck env tr p).2 p := by
  simp only [dirtyCheck] at h ⊢
  split
  · rename_i hcond
    rw [if_pos hcond] at h
    simp only [Prod.fst] at h
    cases h
    rw [runSafe_code] at hcond
    simp [runSafe_delta, dirtySignalEvent, bne_iff_ne.mpr hcond]
  · rename_i hcond
    rw [if_neg hcond] at h
    have h1 : (env.answer tr GitCmd.diffCachedQuiet.render p).code = 0 := by
      have := Decidable.not_not.mp hcond
      rwa [runSafe_code] at this
    have e1 : ((env.answer tr GitCmd.diffCachedQuiet.render p).code != 0) = false := by
      simp [h1]
    split
    · rename_i hcond2
      rw [if_pos hcond2] at h
      simp only [Prod.fst] at h
      cases h
      rw [runSafe_code] at hcond2
      have e2 := bne_iff_ne.mpr hcond2
      simp only [runSafe_delta, List.append_assoc, List.singleton_append,
        List.cons_append, List.nil_append] at e2
      simp [runSafe_delta, dirtySignalEvent, e1, e2]
    · rename_i hcond2
      rw [if_neg hcond2] at h
      have h2 := Decidable.not_not.mp hcond2
      rw [runSafe_code] at h2
      have e2 : ((env.answer (tr ++ (runSafe env tr GitCmd.diffCachedQuiet p).2)
          GitCmd.diffQuiet.render p).code != 0) = false := by simp [h2]
      simp only [runSafe_delta, List.append_assoc, List.singleton_append,
        List.cons_append, List.nil_append] at e2
      split at h
      · cases h
      · rename_i s heq
        simp only [Prod.fst] at h
        cases h
        have hcode := runStrict_code_eq_zero_of_ok heq
        have hout := runStrict_out_of_ok heq
        have e3 := beq_iff_eq.mpr hcode
        simp only [runSafe_delta, List.append_assoc, List.singleton_append,
          List.cons_append, List.nil_append] at e3
        subst hout
        rw [runStrict_delta_of_ok heq]
        simp [runSafe_delta, dirtySignalEvent, e1, e2, e3, pyStrip_idem_empty,
          strip_decide_eq, decide_eq_not_bne]

theorem dirtyCheck_error_signal (env : Env) (tr : List Event) (p : String) (e : Int)
    (h : (dirtyCheck env tr p).1 = Except.error e) :
    dirtySignal (dirtyCheck env tr p).2 p = false := by
  simp only [dirtyCheck] at h ⊢
  split
  · rename_i hcond
    rw [if_pos hcond] at h
    cases h
  · rename_i hcond
    rw [if_neg hcond] at h
    have h1 : (env.answer tr GitCmd.diffCachedQuiet.render p).code = 0 := by
      have := Decidable.not_not.mp hcond
      rwa [runSafe_code] at this
    have e1 : ((env.answer tr GitCmd.diffCachedQuiet.render p).code != 0) = false := by
      simp [h1]
    split
    · rename_i hcond2
      rw [if_pos hcond2] at h
      cases h
    · rename_i hcond2
      rw [if_neg hcond2] at h
      have h2 := Decidable.not_not.mp hcond2
      rw [runSafe_code] at h2
      have e2 : ((env.answer (tr ++ (runSafe env tr GitCmd.diffCachedQuiet p).2)
          GitCmd.diffQuiet.render p).code != 0) = false := by simp [h2]
      simp only [runSafe_delta, List.append_assoc, List.singleton_append,
        List.cons_append, List.nil_append] at e2
      split at h
      · rename_i e3 heq
        have hcode := runStrict_code_ne_zero_of_error heq
        simp only [List.append_assoc] at hcode
        have e4 : ((env.answer (tr ++ ((runSafe env tr GitCmd.diffCachedQuiet p).2 ++
            (runSafe env (tr ++ (runSafe env tr GitCmd.diffCachedQuiet p).2)
              GitCmd.diffQuiet p).2)) GitCmd.statusPorcelain.render p).code == 0) = false := by
          simp [hcode]
        simp only [runSafe_delta, List.append_assoc, List.singleton_append,
          List.cons_append, List.nil_append] at e4
        rw [runStrict_delta_of_error heq]
        simp [runSafe_delta, dirtySignalEvent, e1, e2, e4]
      · cases h

theorem dirtyPhase_cons (e : Event) (es : List Event) (p : String) :
    dirtyPhase (e :: es) p =
      if (!isCmdEvent e GitCmd.stashPush p && !isCmdEvent e GitCmd.pull p) = true
      then e :: dirtyPhase es p else [] := by
  by_cases h : (!isCmdEvent e GitCmd.stashPush p && !isCmdEvent e GitCmd.pull p) = true <;>
    simp [dirtyPhase, List.takeWhile_cons, h]

theorem dirtyPhase_append_all (a b : List Event) (p : String)
    (h : (a.all fun e => !isCmdEvent e GitCmd.stashPush p && !isCmdEvent e GitCmd.pull p) = true) :
    dirtyPhase (a ++ b) p = a ++ dirtyPhase b p := by
  induction a with
  | nil => simp
  | cons e es ih =>
    simp only [List.all_cons, Bool.and_eq_true] at h
    simp [dirtyPhase_cons, h.1, ih h.2]

theorem dirtyPhase_of_all (a : List Event) (p : String)
    (h : (a.all fun e => !isCmdEvent e GitCmd.stashPush p && !isCmdEvent e GitCmd.pull p) = true) :
    dirtyPhase a p = a := by
  have := dirtyPhase_append_all a [] p h
  simpa [dirtyPhase] using this

theorem dirtyPhase_runStrict_stop (env : Env) (tr : List Event) (c : GitCmd)
    (p : String) (x : List Event)
    (hc : (c == GitCmd.stashPush || c == GitCmd.pull) = true) :
    dirtyPhase ((runStrict env tr c p).2 ++ x) p = [] := by
  simp only [runStrict]
  rcases Bool.or_eq_true_iff.mp hc with h | h
  · cases beq_iff_eq.mp h
    split <;> simp [dirtyPhase_cons]
  · cases beq_iff_eq.mp h
    split <;> simp [dirtyPhase_cons]

theorem withStash_false (env : Env) (tr : List Event) (p : String)
    (tag : Option String) : withStash env tr p tag false = syncBody env tr p tag := by
  simp [withStash]

theorem dirtyPhase_syncBody_stop (env : Env) (tr : List Event) (p : String)
    (tag : Option String) :
    dirtyPhase ((syncBody env tr p tag).2) p = [] := by
  simp only [syncBody]
  repeat' split
  all_goals simp only [List.append_assoc]
  all_goals
    first
      | exact dirtyPhase_runStrict_stop env tr GitCmd.pull p _ (by decide)
      | (have h0 := dirtyPhase_runStrict_stop env tr GitCmd.pull p [] (by decide)
         simpa using h0)

theorem dirtyPhase_runStrict_stop_nil (env : Env) (tr : List Event) (c : GitCmd)
    (p : String) (hc : (c == GitCmd.stashPush || c == GitCmd.pull) = true) :
    dirtyPhase (runStrict env tr c p).2 p = [] := by
  have h0 := dirtyPhase_runStrict_stop env tr c p [] hc
  simpa using h0

theorem dirtyPhase_append_stop (a x : List Event) (p : String)
    (ha : (a.all fun e => !isCmdEvent e GitCmd.stashPush p && !isCmdEvent e GitCmd.pull p) = true)
    (hx : dirtyPhase x p = []) : dirtyPhase (a ++ x) p = a := by
  rw [dirtyPhase_append_all _ _ _ ha, hx, List.append_nil]

theorem dirtyPhase_append_stop2 (a s w : List Event) (p : String)
    (ha : (a.all fun e => !isCmdEvent e GitCmd.stashPush p && !isCmdEvent e GitCmd.pull p) = true)
    (hsw : dirtyPhase (s ++ w) p = []) : dirtyPhase ((a ++ s) ++ w) p = a := by
  rw [List.append_assoc]
  exact dirtyPhase_append_stop _ _ _ ha hsw

theorem syncRepo_stash_iff_dirty (env : Env) (tr : List Event) (parent name : String)
    (tag : Option String) (hdir : env.isdir (joinPath parent name) = true) :
    hasCmd (syncRepo env tr parent name tag).2 GitCmd.stashPush (joinPath parent name) =
      dirtySignal (dirtyPhase (syncRepo env tr parent name tag).2 (joinPath parent name))
        (joinPath parent name) := by
  simp only [syncRepo, hdir, if_true]
  split
  · rename_i e heq
    rw [dirtyPhase_of_all _ _ (by simp [dirtyCheck_all_phase])]
    simp [dirtyCheck_no_push, dirtyCheck_error_signal _ _ _ _ heq]
  · rename_i dirty heq
    have hsig := dirtyCheck_ok_signal _ _ _ _ heq
    split
    · rename_i hdirty
      split
      · rename_i e heq2
        rw [dirtyPhase_append_stop _ _ _ (by simp [dirtyCheck_all_phase])
          (dirtyPhase_runStrict_stop_nil env _ GitCmd.stashPush (joinPath parent name)
            (by decide))]
        simp only [hdirty] at hsig
        simp [dirtyCheck_no_push, ← hsig]
      · rename_i s heq2
        rw [dirtyPhase_append_stop2 _ _ _ _ (by simp [dirtyCheck_all_phase])
          (dirtyPhase_runStrict_stop env _ GitCmd.stashPush (joinPath parent name) _
            (by decide))]
        simp only [hdirty] at hsig
        simp [dirtyCheck_no_push, ← hsig]
    · rename_i hdirty
      have hdf : dirty = false := by
        cases dirty
        · rfl
        · exact absurd rfl hdirty
      rw [withStash_false]
      rw [dirtyPhase_append_stop _ _ _ (by simp [dirtyCheck_all_phase])
        (dirtyPhase_syncBody_stop env _ (joinPath parent name) tag)]
      rw [hdf] at hsig
      simp [dirtyCheck_no_push, ← hsig,
        (syncBody_no_stash env _ (joinPath parent name) tag (joinPath parent name)).1]

theorem syncBody_no_orch (env : Env) (tr : List Event) (p : String)
    (tag : Option String) (c : GitCmd) (q : String) (hc : isOrchCmd c = true) :
    hasCmd (syncBody env tr p tag).2 c q = false := by
  simp only [syncBody]
  repeat' split
  all_goals simp
  all_goals cases c <;> simp_all [isOrchCmd]

theorem withStash_no_orch (env : Env) (tr : List Event) (p : String)
    (tag : Option String) (sc : Bool) (c : GitCmd) (q : String) (hc : isOrchCmd c = true) :
    hasCmd (withStash env tr p tag sc).2 c q = false := by
  simp only [withStash]
  repeat' split
  all_goals simp [syncBody_no_orch env _ p tag c q hc]
  all_goals cases c <;> simp_all [isOrchCmd]

theorem dirtyCheck_no_orch (env : Env) (tr : List Event) (p : String)
    (c : GitCmd) (q : String) (hc : isOrchCmd c = true) :
    hasCmd (dirtyCheck env tr p).2 c q = false := by
  simp only [dirtyCheck]
  repeat' split
  all_goals simp
  all_goals cases c <;> simp_all [isOrchCmd]

theorem syncRepo_no_orch (env : Env) (tr : List Event) (parent name : String)
    (tag : Option String) (c : GitCmd) (q : String) (hc : isOrchCmd c = true) :
    hasCmd (syncRepo env tr parent name tag).2 c q = false := by
  simp only [syncRepo]
  repeat' split
  all_goals
    simp [dirtyCheck_no_orch env _ _ c q hc, withStash_no_orch env _ _ tag _ c q hc]
  all_goals cases c <;> simp_all [isOrchCmd]

theorem update_no_orch (env : Env) (parent : String) (repos : List String)
    (tag : Option String) (c : GitCmd) (q : String) (hc : isOrchCmd c = true) :
    ∀ tr : List Event,
      hasCmd (update_sibling_repos env tr parent repos tag).2 c q = false := by
  induction repos with
  | nil => intro tr; rfl
  | cons name rest ih =>
    intro tr
    simp only [update_sibling_repos]
    split
    · exact syncRepo_no_orch env tr parent name tag c q hc
    · simp [syncRepo_no_orch env tr parent name tag c q hc, ih]

@[simp] theorem checkoutAttempted_nil (q : String) : checkoutAttempted [] q = false := rfl

@[simp] theorem checkoutAttempted_cons (e : Event) (es : List Event) (q : String) :
    checkoutAttempted (e :: es) q =
      ((match e with
        | Event.cmd c d _ _ => isCheckoutGitCmd c && d == q
        | _ => false) || checkoutAttempted es q) := by
  cases e with
  | msg s => simp [checkoutAttempted]
  | cmd c d code out => cases c <;> simp [checkoutAttempted, isCheckoutGitCmd]

@[simp] theorem checkoutAttempted_append (a b : List Event) (q : String) :
    checkoutAttempted (a ++ b) q = (checkoutAttempted a q || checkoutAttempted b q) := by
  simp [checkoutAttempted]

@[simp] theorem checkoutAttempted_runStrict (env : Env) (tr : List Event) (c : GitCmd)
    (cwd : String) (q : String) :
    checkoutAttempted (runStrict env tr c cwd).2 q = (isCheckoutGitCmd c && cwd == q) := by
  simp only [runStrict]
  split <;> simp

@[simp] theorem checkoutAttempted_runSafe (env : Env) (tr : List Event) (c : GitCmd)
    (cwd : String) (q : String) :
    checkoutAttempted (runSafe env tr c cwd).2 q = (isCheckoutGitCmd c && cwd == q) := by
  simp [runSafe]

theorem syncBody_no_checkout (env : Env) (tr : List Event) (p : String)
    (tag : Option String) (q : String) :
    checkoutAttempted (syncBody env tr p tag).2 q = false := by
  simp only [syncBody]
  repeat' split
  all_goals simp [isCheckoutGitCmd]

theorem withStash_no_checkout (env : Env) (tr : List Event) (p : String)
    (tag : Option String) (sc : Bool) (q : String) :
    checkoutAttempted (withStash env tr p tag sc).2 q = false := by
  simp only [withStash]
  repeat' split
  all_goals simp [syncBody_no_checkout, isCheckoutGitCmd]

theorem dirtyCheck_no_checkout (env : Env) (tr : List Event) (p : String) (q : String) :
    checkoutAttempted (dirtyCheck env tr p).2 q = false := by
  simp only [dirtyCheck]
  repeat' split
  all_goals simp [isCheckoutGitCmd]

theorem syncRepo_no_checkout (env : Env) (tr : List Event) (parent name : String)
    (tag : Option String) (q : String) :
    checkoutAttempted (syncRepo env tr parent name tag).2 q = false := by
  simp only [syncRepo]
  repeat' split
  all_goals simp [dirtyCheck_no_checkout, withStash_no_checkout, isCheckoutGitCmd]

theorem update_no_checkout (env : Env) (parent : String) (repos : List String)
    (tag : Option String) (q : String) : ∀ tr : List Event,
    checkoutAttempted (update_sibling_repos env tr parent repos tag).2 q = false := by
  induction repos with
  | nil => intro tr; rfl
  | cons name rest ih =>
    intro tr
    simp only [update_sibling_repos]
    split
    · exact syncRepo_no_checkout env tr parent name tag q
    · simp [syncRepo_no_checkout, ih]

@[simp] theorem firstOkCmdOutTrim_nil (c : GitCmd) (q : String) :
    firstOkCmdOutTrim [] c q = none := rfl

theorem firstOkCmdOutTrim_cons_msg (s : String) (es : List Event) (c : GitCmd) (q : String) :
    firstOkCmdOutTrim (Event.msg s :: es) c q = firstOkCmdOutTrim es c q := by
  simp [firstOkCmdOutTrim, List.find?_cons]

theorem firstOkCmdOutTrim_cons_cmd (c2 : GitCmd) (d : String) (code : Int) (out : String)
    (es : List Event) (c : GitCmd) (q : String) :
    firstOkCmdOutTrim (Event.cmd c2 d code out :: es) c q =
      if c2 == c && d == q && code == 0 then some (pyStrip out)
      else firstOkCmdOutTrim es c q := by
  by_cases h : (c2 == c && d == q && code == 0) = true <;>
    simp [firstOkCmdOutTrim, List.find?_cons, isOkCmdEvent, h]

theorem firstOkCmdOutTrim_none_of_hasOkCmd_false (t : List Event) (c : GitCmd) (q : String)
    (h : hasOkCmd t c q = false) : firstOkCmdOutTrim t c q = none := by
  induction t with
  | nil => rfl
  | cons e es ih =>
    simp only [hasOkCmd_cons, Bool.or_eq_false_iff] at h
    cases e with
    | msg s => simpa [firstOkCmdOutTrim_cons_msg] using ih h.2
    | cmd c2 d code out =>
      simp only [isOkCmdEvent_cmd] at h
      rw [firstOkCmdOutTrim_cons_cmd]
      simp [h.1, ih h.2]

theorem firstOkCmdOutTrim_append (a b : List Event) (c : GitCmd) (q : String) :
    firstOkCmdOutTrim (a ++ b) c q =
      if hasOkCmd a c q then firstOkCmdOutTrim a c q else firstOkCmdOutTrim b c q := by
  induction a with
  | nil => simp
  | cons e es ih =>
    cases e with
    | msg s => simp [firstOkCmdOutTrim_cons_msg, ih, hasOkCmd_cons]
    | cmd c2 d code out =>
      by_cases h : (c2 == c && d == q && code == 0) = true
      · simp [firstOkCmdOutTrim_cons_cmd, h, hasOkCmd_cons]
      · simp only [Bool.not_eq_true] at h
        simp [firstOkCmdOutTrim_cons_cmd, h, hasOkCmd_cons, ih]

/-- Claim C6: when the explicit tag is malformed the process exits with code 2
before performing any VCS operation; when it is well-formed, Tag-and-Push runs
on the primary repository and then the Sibling Synchronizer runs with that tag
(a failing Tag-and-Push aborts with its exit code). -/
theorem mainRun_explicit_tag (env : Env) (cwd parentDir repoArg t : String) :
    (is_semver t = false →
      (mainRun env cwd parentDir repoArg (some t)).1 = Except.error 2 ∧
      (∀ c q, hasCmd (mainRun env cwd parentDir repoArg (some t)).2 c q = false)) ∧
    (is_semver t = true →
      mainRun env cwd parentDir repoArg (some t) =
        (match (git_tag_and_push env [] t cwd).1 with
         | Except.error e => (Except.error e, (git_tag_and_push env [] t cwd).2)
         | Except.ok _ =>
           ((update_sibling_repos env (git_tag_and_push env [] t cwd).2 parentDir
              (parseRepos repoArg) (some t)).1,
            (git_tag_and_push env [] t cwd).2 ++
              (update_sibling_repos env (git_tag_and_push env [] t cwd).2 parentDir
                (parseRepos repoArg) (some t)).2))) := by
  constructor
  · intro hbad
    simp [mainRun, hbad, hasCmd]
  · intro hgood
    simp only [mainRun, hgood, if_true]

theorem hasOkCmd_update_false (env : Env) (parent : String) (repos : List String)
    (tag : Option String) (c : GitCmd) (q : String) (hc : isOrchCmd c = true)
    (tr : List Event) :
    hasOkCmd (update_sibling_repos env tr parent repos tag).2 c q = false :=
  hasOkCmd_false_of_hasCmd_false _ _ _ (update_no_orch env parent repos tag c q hc tr)

/-- Claim C4: in auto-detect mode the orchestrator pulls the primary
repository, fetches remote tags and filters to well-formed semver tags; when
the tag listing succeeds with no well-formed tag it terminates successfully
without running the synchronizer (the whole run is exactly the five
orchestrator events); otherwise it selects the newest tag, skips the checkout
when that tag is already listed at HEAD and checks it out otherwise, and in
both cases runs the Sibling Synchronizer with that tag as the trigger. -/
theorem mainRun_auto_detect (env : Env) (cwd parentDir repoArg : String) :
    ∀ o, firstOkCmdOutTrim (mainRun env cwd parentDir repoArg none).2 GitCmd.listTags cwd
        = some o →
      ((vTagsOf o = [] →
          (mainRun env cwd parentDir repoArg none).1 = Except.ok () ∧
          hasMsg (mainRun env cwd parentDir repoArg none).2
            "No v-style tags found — exiting." = true ∧
          (mainRun env cwd parentDir repoArg none).2.length = 5 ∧
          checkoutAttempted (mainRun env cwd parentDir repoArg none).2 cwd = false) ∧
       (vTagsOf o ≠ [] →
          ∀ ho, firstOkCmdOutTrim (mainRun env cwd parentDir repoArg none).2
              GitCmd.listTagsAtHead cwd = some ho →
            ((newestOf o ∈ splitlines ho →
                checkoutAttempted (mainRun env cwd parentDir repoArg none).2 cwd = false ∧
                ∃ pre, mainRun env cwd parentDir repoArg none =
                  syncCall env pre parentDir repoArg (newestOf o)) ∧
             (newestOf o ∉ splitlines ho →
                hasCmd (mainRun env cwd parentDir repoArg none).2
                  (GitCmd.checkout (newestOf o)) cwd = true ∧
                (hasOkCmd (mainRun env cwd parentDir repoArg none).2
                    (GitCmd.checkout (newestOf o)) cwd = true →
                  ∃ pre, mainRun env cwd parentDir repoArg none =
                    syncCall env pre parentDir repoArg (newestOf o)))))) := by
  intro o ho
  simp only [mainRun] at ho ⊢
  split at ho
  · rename_i e h1
    rw [runStrict_delta_of_error h1] at ho
    simp [firstOkCmdOutTrim_cons_msg, firstOkCmdOutTrim_cons_cmd] at ho
  · rename_i s1 h1
    rw [runStrict_delta_of_ok h1] at ho ⊢
    split at ho
    · rename_i e h2
      rw [runStrict_delta_of_error h2] at ho
      simp [firstOkCmdOutTrim_cons_msg, firstOkCmdOutTrim_cons_cmd] at ho
    · rename_i s2 h2
      rw [runStrict_delta_of_ok h2] at ho ⊢
      split at ho
      · rename_i e h3
        have hc3 := runStrict_code_ne_zero_of_error h3
        have e3 := beq_eq_false_iff_ne.mpr hc3
        simp only [List.append_assoc, List.singleton_append, List.cons_append,
          List.nil_append] at e3
        rw [runStrict_delta_of_error h3] at ho
        simp [firstOkCmdOutTrim_cons_msg, firstOkCmdOutTrim_cons_cmd, e3] at ho
      · rename_i s3 h3
        have hc3 := runStrict_code_eq_zero_of_ok h3
        have hout3 := runStrict_out_of_ok h3
        simp only [List.append_assoc, List.singleton_append, List.cons_append,
          List.nil_append] at hout3
        have e3 := beq_iff_eq.mpr hc3
        simp only [List.append_assoc, List.singleton_append, List.cons_append,
          List.nil_append] at e3
        rw [runStrict_delta_of_ok h3] at ho ⊢
        split at ho
        · rename_i hempty
          rw [if_pos hempty]
          simp [firstOkCmdOutTrim_cons_msg, firstOkCmdOutTrim_cons_cmd, e3] at ho
          constructor
          · intro _
            refine ⟨rfl, by simp [hasMsg], by simp, by simp [isCheckoutGitCmd]⟩
          · intro hne
            exfalso
            apply hne
            subst ho
            rw [← hout3]
            simpa [vTagsOf] using List.isEmpty_iff.mp hempty
        · rename_i hnonempty
          rw [if_neg hnonempty]
          split at ho
          · rename_i e h4
            have hc4 := runStrict_code_ne_zero_of_error h4
            have e4 := beq_eq_false_iff_ne.mpr hc4
            simp only [List.append_assoc, List.singleton_append, List.cons_append,
              List.nil_append] at e4
            rw [runStrict_delta_of_error h4] at ho ⊢
            simp [firstOkCmdOutTrim_cons_msg, firstOkCmdOutTrim_cons_cmd, e3, e4] at ho
            subst ho
            constructor
            · intro hv
              exfalso
              apply hnonempty
              rw [List.isEmpty_iff, hout3]
              simpa [vTagsOf] using hv
            · intro hne ho2 hobs2
              simp [firstOkCmdOutTrim_cons_msg, firstOkCmdOutTrim_cons_cmd, e3, e4] at hobs2
          · rename_i headOut h4
            have hc4 := runStrict_code_eq_zero_of_ok h4
            have hout4 := runStrict_out_of_ok h4
            simp only [List.append_assoc, List.singleton_append, List.cons_append,
              List.nil_append] at hout4
            have e4 := beq_iff_eq.mpr hc4
            simp only [List.append_assoc, List.singleton_append, List.cons_append,
              List.nil_append] at e4
            rw [runStrict_delta_of_ok h4] at ho ⊢
            split at ho
            · rename_i hmem
              rw [if_pos hmem]
              simp [firstOkCmdOutTrim_cons_msg, firstOkCmdOutTrim_cons_cmd, e3, e4,
                firstOkCmdOutTrim_append, hasOkCmd_update_false, isOrchCmd] at ho
              subst ho
              constructor
              · intro hv
                exfalso
                apply hnonempty
                rw [List.isEmpty_iff, hout3]
                simpa [vTagsOf] using hv
              · intro hne ho2 hobs2
                simp [firstOkCmdOutTrim_cons_msg, firstOkCmdOutTrim_cons_cmd, e3, e4,
                  firstOkCmdOutTrim_append, hasOkCmd_update_false, isOrchCmd] at hobs2
                subst hobs2
                constructor
                · intro _
                  refine ⟨by simp [update_no_checkout, isCheckoutGitCmd], ?_⟩
                  rw [← hout3]
                  simp only [syncCall, newestOf, vTagsOf]
                  exact ⟨_, rfl⟩
                · intro hnm
                  exfalso
                  apply hnm
                  rw [← hout4, ← hout3]
                  simp only [newestOf, vTagsOf]
                  exact hmem
            · rename_i hnmem
              rw [if_neg hnmem]
              split at ho
              · rename_i e h5
                have hc5 := runStrict_code_ne_zero_of_error h5
                have e5 := beq_eq_false_iff_ne.mpr hc5
                simp only [List.append_assoc, List.singleton_append, List.cons_append,
                  List.nil_append] at e5
                rw [runStrict_delta_of_error h5] at ho ⊢
                simp [firstOkCmdOutTrim_cons_msg, firstOkCmdOutTrim_cons_cmd, e3, e4] at ho
                subst ho
                constructor
                · intro hv
                  exfalso
                  apply hnonempty
                  rw [List.isEmpty_iff, hout3]
                  simpa [vTagsOf] using hv
                · intro hne ho2 hobs2
                  simp [firstOkCmdOutTrim_cons_msg, firstOkCmdOutTrim_cons_cmd,
                    e3, e4] at hobs2
                  subst hobs2
                  constructor
                  · intro hmem2
                    exfalso
                    apply hnmem
                    rw [← hout4, ← hout3] at hmem2
                    simpa [newestOf, vTagsOf] using hmem2
                  · intro _
                    rw [← hout3]
                    simp only [newestOf, vTagsOf]
                    constructor
                    · simp
                    · intro hok
                      exfalso
                      simp [e5] at hok
                      simp only [List.append_assoc, List.singleton_append,
                        List.cons_append, List.nil_append,
                        List.getLastD_eq_getLast?] at hc5
                      exact hc5 hok
              · rename_i s5 h5
                have hc5 := runStrict_code_eq_zero_of_ok h5
                have e5 := beq_iff_eq.mpr hc5
                simp only [List.append_assoc, List.singleton_append, List.cons_append,
                  List.nil_append] at e5
                rw [runStrict_delta_of_ok h5] at ho ⊢
                simp [firstOkCmdOutTrim_cons_msg, firstOkCmdOutTrim_cons_cmd, e3, e4,
                  firstOkCmdOutTrim_append, hasOkCmd_update_false, isOrchCmd] at ho
                subst ho
                constructor
                · intro hv
                  exfalso
                  apply hnonempty
                  rw [List.isEmpty_iff, hout3]
                  simpa [vTagsOf] using hv
                · intro hne ho2 hobs2
                  simp [firstOkCmdOutTrim_cons_msg, firstOkCmdOutTrim_cons_cmd, e3, e4,
                    firstOkCmdOutTrim_append, hasOkCmd_update_false, isOrchCmd] at hobs2
                  subst hobs2
                  constructor
                  · intro hmem2
                    exfalso
                    apply hnmem
                    rw [← hout4, ← hout3] at hmem2
                    simpa [newestOf, vTagsOf] using hmem2
                  · intro _
                    rw [← hout3]
                    simp only [newestOf, vTagsOf]
                    constructor
                    · simp
                    · intro _
                      simp only [syncCall]
                      exact ⟨_, rfl⟩

theorem takeWhile_digits_append (a t : List Char)
    (ha : a.all Char.isDigit = true)
    (ht : match t with
          | [] => True
          | c :: _ => c.isDigit = false) :
    (a ++ t).takeWhile Char.isDigit = a ∧ (a ++ t).dropWhile Char.isDigit = t := by
  induction a with
  | nil =>
    cases t with
    | nil => exact ⟨rfl, rfl⟩
    | cons c u =>
      simp only at ht
      simp [List.takeWhile_cons, List.dropWhile_cons, ht]
  | cons x xs ih =>
    simp only [List.all_cons, Bool.and_eq_true] at ha
    have := ih ha.2
    simp [List.takeWhile_cons, List.dropWhile_cons, ha.1, this.1, this.2]

theorem matchNum_of_digits (a t : List Char) (hne : a ≠ [])
    (ha : a.all Char.isDigit = true)
    (ht : match t with
          | [] => True
          | c :: _ => c.isDigit = false) :
    matchNum (a ++ t) = some t := by
  obtain ⟨h1, h2⟩ := takeWhile_digits_append a t ha ht
  simp [matchNum, h1, h2, hne]

theorem matchNum_some (cs r : List Char) (h : matchNum cs = some r) :
    cs = cs.takeWhile Char.isDigit ++ r ∧
    cs.takeWhile Char.isDigit ≠ [] ∧
    (cs.takeWhile Char.isDigit).all Char.isDigit = true := by
  simp only [matchNum] at h
  by_cases he : (cs.takeWhile Char.isDigit).isEmpty = true
  · simp [he] at h
  · simp only [he, if_neg, Bool.not_eq_true, if_false] at h
    cases h
    refine ⟨(List.takeWhile_append_dropWhile Char.isDigit cs).symm, ?_, ?_⟩
    · simpa [List.isEmpty_iff] using he
    · rw [List.all_eq_true]
      intro x hx
      exact List.mem_takeWhile_imp hx

theorem is_semver_iff_spec (s : String) : is_semver s = true ↔ isSemverSpec s := by
  constructor
  · intro h
    rcases hd : s.data with _ | ⟨c, rest⟩
    · rw [is_semver, hd] at h
      cases h
    · rw [is_semver, hd] at h
      simp only [Bool.and_eq_true, beq_iff_eq] at h
      obtain ⟨hc, hsem⟩ := h
      subst hc
      simp only [semTail] at hsem
      split at hsem
      · cases hsem
      · rename_i r1 h1
        obtain ⟨hsplit1, hne1, hdig1⟩ := matchNum_some _ _ h1
        split at hsem
        · cases hsem
        · rename_i c1 r2
          simp only [Bool.and_eq_true, beq_iff_eq] at hsem
          obtain ⟨hc1, hsem⟩ := hsem
          subst hc1
          split at hsem
          · cases hsem
          · rename_i r3 h2
            obtain ⟨hsplit2, hne2, hdig2⟩ := matchNum_some _ _ h2
            split at hsem
            · cases hsem
            · rename_i c2 r4
              simp only [Bool.and_eq_true, beq_iff_eq] at hsem
              obtain ⟨hc2, hsem⟩ := hsem
              subst hc2
              split at hsem
              · cases hsem
              · rename_i r5 h3
                obtain ⟨hsplit3, hne3, hdig3⟩ := matchNum_some _ _ h3
                rw [List.isEmpty_iff] at hsem
                subst hsem
                rw [List.append_nil] at hsplit3
                refine ⟨String.mk (rest.takeWhile Char.isDigit),
                  String.mk (r2.takeWhile Char.isDigit),
                  String.mk (r4.takeWhile Char.isDigit),
                  hne1, hdig1, hne2, hdig2, hne3, hdig3, ?_⟩
                apply String.ext
                rw [hd]
                simp only [String.data_append]
                rw [← hsplit3]
                simp only [List.singleton_append, List.cons_append, List.append_assoc,
                  List.nil_append]
                rw [← hsplit2, ← hsplit1]
  · rintro ⟨a, b, c, hna, hda, hnb, hdb, hnc, hdc, rfl⟩
    have hdata : ("v" ++ a ++ "." ++ b ++ "." ++ c).data =
        'v' :: (a.data ++ '.' :: (b.data ++ '.' :: c.data)) := by
      simp
    rw [is_semver, hdata]
    have m1 : matchNum (a.data ++ '.' :: (b.data ++ '.' :: c.data)) =
        some ('.' :: (b.data ++ '.' :: c.data)) :=
      matchNum_of_digits _ _ hna hda (show ('.' : Char).isDigit = false from by decide)
    have m2 : matchNum (b.data ++ '.' :: c.data) = some ('.' :: c.data) :=
      matchNum_of_digits _ _ hnb hdb (show ('.' : Char).isDigit = false from by decide)
    have m3 : matchNum (c.data ++ []) = some [] :=
      matchNum_of_digits _ _ hnc hdc trivial
    rw [List.append_nil] at m3
    simp [semTail, m1, m2, m3]

theorem keyLt_trans (a : List Nat) : ∀ b c : List Nat,
    keyLt a b = true → keyLt b c = true → keyLt a c = true := by
  induction a with
  | nil =>
    intro b c h1 h2
    cases c with
    | nil => cases b <;> simp [keyLt] at h2
    | cons z zs => simp [keyLt]
  | cons x xs ih =>
    intro b c h1 h2
    cases b with
    | nil => simp [keyLt] at h1
    | cons y ys =>
      cases c with
      | nil => simp [keyLt] at h2
      | cons z zs =>
        simp only [keyLt] at h1 h2 ⊢
        split at h1
        · rename_i hxy
          split at h2
          · rename_i hyz
            simp [show x < z from by omega]
          · split at h2
            · cases h2
            · rename_i hyz hzy
              have hyzeq : y = z := by omega
              subst hyzeq
              simp [hxy]
        · split at h1
          · cases h1
          · rename_i hxy hyx
            split at h2
            · rename_i hyz
              simp [show x < z from by omega]
            · split at h2
              · cases h2
              · rename_i hyz hzy
                have hxz : ¬ x < z := by omega
                have hzx : ¬ z < x := by omega
                simp only [hxz, if_false, hzx]
                exact ih ys zs h1 h2

theorem keyLt_asymm (a : List Nat) : ∀ b : List Nat,
    keyLt a b = true → keyLt b a = false := by
  induction a with
  | nil =>
    intro b h1
    cases b <;> simp [keyLt]
  | cons x xs ih =>
    intro b h1
    cases b with
    | nil => simp [keyLt] at h1
    | cons y ys =>
      simp only [keyLt] at h1 ⊢
      split at h1
      · rename_i hxy
        simp [show ¬ y < x from by omega, show x < y from hxy]
      · split at h1
        · cases h1
        · rename_i hxy hyx
          simp only [hyx, if_false, hxy]
          exact ih ys h1

theorem keyLt_connex (a : List Nat) : ∀ b : List Nat,
    keyLt a b = false → keyLt b a = false → a = b := by
  induction a with
  | nil =>
    intro b h1 _
    cases b with
    | nil => rfl
    | cons y ys => simp [keyLt] at h1
  | cons x xs ih =>
    intro b h1 h2
    cases b with
    | nil => simp [keyLt] at h2
    | cons y ys =>
      simp only [keyLt] at h1 h2
      split at h1
      · cases h1
      · rename_i hxy
        split at h1
        · rename_i hyx
          rw [if_pos hyx] at h2
          cases h2
        · rename_i hyx
          have hxyeq : x = y := by omega
          subst hxyeq
          simp only [lt_irrefl, if_false] at h2
          rw [ih ys h1 h2]

theorem keyLe_total (a b : List Nat) : (keyLe a b || keyLe b a) = true := by
  by_cases h : keyLt b a = true
  · have h2 := keyLt_asymm b a h
    simp [keyLe, h, h2]
  · simp only [Bool.not_eq_true] at h
    simp [keyLe, h]

theorem keyLe_trans (a b c : List Nat)
    (h1 : keyLe a b = true) (h2 : keyLe b c = true) : keyLe a c = true := by
  simp only [keyLe, Bool.not_eq_true'] at h1 h2 ⊢
  by_contra hca
  simp only [Bool.not_eq_false] at hca
  by_cases hbc : keyLt b c = true
  · have := keyLt_trans b c a hbc hca
    rw [this] at h1
    cases h1
  · simp only [Bool.not_eq_true] at hbc
    have := keyLt_connex b c hbc h2
    subst this
    rw [hca] at h1
    cases h1

/-- Claim C1: in every sibling-repository sync in which the stash push
succeeded, a stash pop is executed before the synchronizer finishes with that
repository, on every exit path — the environment is arbitrary, so this covers
pull/submodule/commit failures as well as the success path. -/
theorem update_sibling_repos_stash_restored (env : Env) (tr : List Event)
    (parent : String) (repos : List String) (tag : Option String) (q : String)
    (h : hasOkCmd (update_sibling_repos env tr parent repos tag).2 GitCmd.stashPush q = true) :
    hasCmd (update_sibling_repos env tr parent repos tag).2 GitCmd.stashPop q = true := by
  rw [update_pop_eq_push]
  exact h

/-- Witness for C1: in a world with a dirty tree whose pull fails, the stash
push succeeds and the pop is still executed. -/
theorem update_sibling_repos_stash_restored_witness :
    hasCmd (update_sibling_repos envDirty [] "P" ["a"] none).2 GitCmd.stashPop "P/a" = true :=
  update_sibling_repos_stash_restored envDirty [] "P" ["a"] none "P/a" (by decide)

/-- Claim C2: for every sibling repository, a commit command is issued if and
only if the cached-diff probe run after staging the submodule path reported a
difference; in particular a clean probe (exit 0, as after a second run with no
remote advance) never produces a commit. -/
theorem syncRepo_commit_iff_cached_diff (env : Env) (tr : List Event)
    (parent name : String) (tag : Option String) :
    commitAttempted (syncRepo env tr parent name tag).2 (joinPath parent name) =
      probeSignal
        (cachedProbeAfterAdd (syncRepo env tr parent name tag).2 (joinPath parent name)) :=
  syncRepo_commit_eq_probe env tr parent name tag

/-- Counterexample for C3 as stated: the commit message is not the literal
string "auto-update to template v1.0.0"; the code commits with the Chinese
message "chore: 自动更新至模版 v1.0.0" (which does contain the tag). -/
theorem syncRepo_commit_message_counterexample :
    commitAttempted (syncRepo envCommit [] "P" "r" (some "v1.0.0")).2 "P/r" = true ∧
    hasCmd (syncRepo envCommit [] "P" "r" (some "v1.0.0")).2
      (GitCmd.commit "auto-update to template v1.0.0") "P/r" = false ∧
    hasCmd (syncRepo envCommit [] "P" "r" (some "v1.0.0")).2
      (GitCmd.commit "chore: 自动更新至模版 v1.0.0") "P/r" = true := by
  refine ⟨by decide, by decide, by decide⟩

/-- Claim C3 (amended): every commit issued by the synchronizer carries the
message "chore: 自动更新至模版 <tag>" when a triggering tag is present — a
message containing the tag — and the fixed message "chore: 自动更新至最新模版"
when no tag triggered the run. -/
theorem syncRepo_commit_message (env : Env) (tr : List Event) (parent name : String) :
    (∀ t m cwd code out,
        Event.cmd (GitCmd.commit m) cwd code out ∈ (syncRepo env tr parent name (some t)).2 →
        m = "chore: 自动更新至模版 " ++ t ∧
        ∃ pre post, m = pre ++ t ++ post) ∧
    (∀ m cwd code out,
        Event.cmd (GitCmd.commit m) cwd code out ∈ (syncRepo env tr parent name none).2 →
        m = "chore: 自动更新至最新模版") := by
  constructor
  · intro t m cwd code out hmem
    have h := (syncRepo_commit_msg env tr parent name (some t) m cwd code out hmem).1
    refine ⟨h, "chore: 自动更新至模版 ", "", ?_⟩
    rw [h]
    simp [commitMessage]
  · intro m cwd code out hmem
    exact (syncRepo_commit_msg env tr parent name none m cwd code out hmem).1

/-- Witness for C3 (amended), at the concrete commit event produced in the
`envCommit` world. -/
theorem syncRepo_commit_message_witness :
    "chore: 自动更新至模版 v1.0.0" = "chore: 自动更新至模版 " ++ "v1.0.0" ∧
    ∃ pre post, "chore: 自动更新至模版 v1.0.0" = pre ++ "v1.0.0" ++ post :=
  (syncRepo_commit_message envCommit [] "P" "r").1 "v1.0.0"
    "chore: 自动更新至模版 v1.0.0" "P/r" 0 "" (by decide)

/-- Witness for C4: in a world whose tag listing is empty, auto-detect mode
terminates successfully after printing the no-tags message. -/
theorem mainRun_auto_detect_witness :
    (mainRun envNoTags "C" "P" "a" none).1 = Except.ok () ∧
    hasMsg (mainRun envNoTags "C" "P" "a" none).2 "No v-style tags found — exiting." = true :=
  ⟨((mainRun_auto_detect envNoTags "C" "P" "a" "" (by decide)).1 (by decide)).1,
   ((mainRun_auto_detect envNoTags "C" "P" "a" "" (by decide)).1 (by decide)).2.1⟩

/-- Claim C5: for a sibling repository whose directory exists, a stash push is
issued if and only if one of the three dirty probes executed before the
stash/pull phase signalled a non-clean state (non-zero staged-diff probe,
non-zero unstaged-diff probe, or successful status listing with non-empty
stripped output). -/
theorem syncRepo_dirty_iff_stash (env : Env) (tr : List Event) (parent name : String)
    (tag : Option String) (hdir : env.isdir (joinPath parent name) = true) :
    hasCmd (syncRepo env tr parent name tag).2 GitCmd.stashPush (joinPath parent name) =
      dirtySignal (dirtyPhase (syncRepo env tr parent name tag).2 (joinPath parent name))
        (joinPath parent name) :=
  syncRepo_stash_iff_dirty env tr parent name tag hdir

/-- Witness for C5: in the dirty world the staged-diff probe fires and the
stash push is indeed issued. -/
theorem syncRepo_dirty_iff_stash_witness :
    hasCmd (syncRepo envDirty [] "P" "a" none).2 GitCmd.stashPush (joinPath "P" "a") =
      dirtySignal (dirtyPhase (syncRepo envDirty [] "P" "a" none).2 (joinPath "P" "a"))
        (joinPath "P" "a") :=
  syncRepo_dirty_iff_stash envDirty [] "P" "a" none (by decide)

/-- Witness for C6: the malformed tag "1.2.3" makes the run exit with code 2. -/
theorem mainRun_explicit_tag_witness :
    (mainRun envNoTags "C" "P" "a" (some "1.2.3")).1 = Except.error 2 :=
  ((mainRun_explicit_tag envNoTags "C" "P" "a" "1.2.3").1 (by decide)).1

/-- Claim C7: when a named sibling's resolved directory does not exist, the
synchronizer reports the skip, performs no VCS operation on it, and continues
with the remaining repositories in order: the run on `name :: rest` is exactly
the warning message followed by the run on `rest`. -/
theorem update_sibling_repos_skips_missing (env : Env) (tr : List Event)
    (parent name : String) (rest : List String) (tag : Option String)
    (h : env.isdir (joinPath parent name) = false) :
    update_sibling_repos env tr parent (name :: rest) tag =
      ((update_sibling_repos env
          (tr ++ [Event.msg ("[WARN] Skipping missing repo: " ++ joinPath parent name)])
          parent rest tag).1,
        Event.msg ("[WARN] Skipping missing repo: " ++ joinPath parent name) ::
          (update_sibling_repos env
            (tr ++ [Event.msg ("[WARN] Skipping missing repo: " ++ joinPath parent name)])
            parent rest tag).2) := by
  simp [update_sibling_repos, syncRepo, h]

/-- Witness for C7: with `P/b` missing, the run on ["b", "c"] is the warning
followed by the run on ["c"], which still updates `c`. -/
theorem update_sibling_repos_skips_missing_witness :
    update_sibling_repos envBMissing [] "P" ["b", "c"] none =
      ((update_sibling_repos envBMissing
          [Event.msg ("[WARN] Skipping missing repo: " ++ joinPath "P" "b")]
          "P" ["c"] none).1,
        Event.msg ("[WARN] Skipping missing repo: " ++ joinPath "P" "b") ::
          (update_sibling_repos envBMissing
            [Event.msg ("[WARN] Skipping missing repo: " ++ joinPath "P" "b")]
            "P" ["c"] none).2) := by
  have h := update_sibling_repos_skips_missing envBMissing [] "P" "b" ["c"] none (by decide)
  simpa using h

/-- Claim C8: `is_semver` accepts exactly the strings of the form
`v<uint>.<uint>.<uint>` — `v` followed by three dot-separated non-empty digit
strings and nothing else — and in particular accepts "v1.2.3" and rejects
"v1.2", "1.2.3" and "v1.2.3-rc1". -/
theorem is_semver_spec_correct :
    (∀ s, is_semver s = true ↔ isSemverSpec s) ∧
    is_semver "v1.2.3" = true ∧
    is_semver "v1.2" = false ∧
    is_semver "1.2.3" = false ∧
    is_semver "v1.2.3-rc1" = false := by
  refine ⟨is_semver_iff_spec, by decide, by decide, by decide, by decide⟩

/-- Witness for C8 at the concrete tag "v1.2.3". -/
theorem is_semver_spec_correct_witness : isSemverSpec "v1.2.3" :=
  (is_semver_spec_correct.1 "v1.2.3").mp (by decide)

/-- Claim C9: tag sorting orders tags ascending by the numeric
(major, minor, patch) key, not lexicographically by string — the sorted output
is always a permutation of the input, sorted by the numeric key, and on
["v1.10.0", "v1.2.0", "v2.0.0"] it yields ["v1.2.0", "v1.10.0", "v2.0.0"]
whose last element, the selected newest tag, is "v2.0.0". -/
theorem sortTags_semantics :
    sortTags ["v1.10.0", "v1.2.0", "v2.0.0"] = ["v1.2.0", "v1.10.0", "v2.0.0"] ∧
    (sortTags ["v1.10.0", "v1.2.0", "v2.0.0"]).getLastD "" = "v2.0.0" ∧
    (∀ ts : List String, (sortTags ts).Perm ts) ∧
    (∀ ts : List String,
      List.Sorted (fun x y => keyLe (semKey x) (semKey y) = true) (sortTags ts)) := by
  refine ⟨by decide, by decide, ?_, ?_⟩
  · intro ts
    exact List.perm_insertionSort _ ts
  · intro ts
    haveI : IsTotal String (fun x y => keyLe (semKey x) (semKey y) = true) := by
      constructor
      intro x y
      rcases Bool.or_eq_true_iff.mp (keyLe_total (semKey x) (semKey y)) with h | h
      · exact Or.inl h
      · exact Or.inr h
    haveI : IsTrans String (fun x y => keyLe (semKey x) (semKey y) = true) := by
      constructor
      intro x y z h1 h2
      exact keyLe_trans _ _ _ h1 h2
    exact List.sorted_insertionSort _ ts

/-- Claim C10: the guaranteed-cleanup action attempts a stash pop exactly when
the stash push command completed successfully earlier in the same invocation —
the synchronizer never pops a stash it did not create, including when the
stash push itself fails or when the tree was clean. -/
theorem syncRepo_pop_iff_push (env : Env) (tr : List Event) (parent name : String)
    (tag : Option String) (q : String) :
    hasCmd (syncRepo env tr parent name tag).2 GitCmd.stashPop q =
      hasOkCmd (syncRepo env tr parent name tag).2 GitCmd.stashPush q :=
  syncRepo_pop_eq_push env tr parent name tag q
